import Mathlib

/-!
# Arbitrage: normal distribution, Black-Scholes closed form and SVI

A shallow embedding of `src/math/probability/normal/normal.cpp`,
`src/frameworks/blackscholes/blackscholes.cpp`, `src/frameworks/svi/svi.cpp`
and `src/datastructure/timestamp/timestamp.cpp`.

Modelling conventions.

* A C++ `double` is a real number and the arithmetic is exact: `exp`, `log`,
  `sqrt`, `acos` and `fabs` are the real functions. Rounding, infinities and
  NaN are outside the model, but for what the next items say.
* The square root of a negative number and `pow` of a negative base with a
  fractional exponent are NaN, and a comparison with a NaN is false. The last
  check of the body of `SVI::SVI` is modelled so (`bodyChecks`), and `c_pow`,
  `c_sqrt` and `SSVI.total_variance_double` say where `SSVI::total_variance`
  is NaN. A member that would hold a NaN or an infinity holds the real number
  that the total functions of Lean give, and a run of `SVI::SVI` that stores a
  NaN in a member on which a later test depends (`alpha` for `1 < |beta| < 2`)
  is outside the model.
* An `int` flag is an integer, cast to a real where the C++ code converts it
  implicitly.
* A constructor that may throw returns `Except Exception _`.
* The members of a `BlackScholesClosedForm` are initialised in the order in
  which the header declares them, not in the order of the constructor's
  initializer list. The object under construction is a record of optional
  values (`Members`); a `compute_*` member function that reads a member whose
  initializer has not run yet yields `none`.
* The members of an `SVI` are initialised in declaration order as well, and
  there the initializers do read members that are declared later. Such a read
  returns what the storage of the object held before the constructor ran; that
  prior content is the argument `mem` of `SVI.construct`. The local `factor`
  of `SVI::get_dmdt`, which is read without ever being assigned, is an
  argument in the same way.
* `svi.cpp` includes `<iostream>` only. Its unqualified `abs` is then the
  `int abs(int)` of the C library (`c_abs`): the argument is truncated to an
  `int`, so `abs(x) > 1` holds for `2 ≤ |x| < 2^31`. Where `pow` is a number it
  is the real power function.
* The member `nu_` of an `SSVI` is initialised from itself; as for `SVI`, the
  value read is the prior content of the storage, the argument `mem` of
  `SSVI.construct`.
* A `long long` is an integer in `[-2^63, 2^63)` and the division of two
  integers truncates. The conversion of a `long long` to `double` rounds to 53
  significant bits (`to_double`). Where the language leaves the behaviour
  undefined, the value is the one of an x86-64 build: signed arithmetic wraps
  around, and the conversion of a `double` outside the range of the integer
  type gives the least value of the type.
-/

namespace Arbitrage

noncomputable section

/-- The exception classes of `normal.h`, `blackscholes.h`, `svi.h` and
`timestamp.h`. The last
constructor is not a C++ exception: it marks a construction in which an
initializer read a member before that member was initialised. -/
inductive Exception where
  | NormalDistributionNonPositiveSigma
  | BlackScholesNonPositiveImpliedVolatility
  | BlackScholesNonPositiveYearFraction
  | SVIWrongParameterValue
  | SSVIWrongParameterValue
  | NegativeEpochTimestamp
  | NegativeYearFraction
  | IndeterminateMemberRead
  deriving DecidableEq

/-! ## `normal.cpp` -/

/-- Modelled from the spec: the constant `numbers::PI` of `math/numbers.h`, a
header that is not among the sources; the spec's density is
`(1/(σ√(2π)))·exp(−½z²)`. -/
def numbers.PI : ℝ := Real.pi

/-- The `struct NormalDistribution` of `normal.h`. -/
structure NormalDistribution where
  mu_ : ℝ
  sigma_ : ℝ

namespace NormalDistribution

/-- The `NormalDistribution::NormalDistribution()` constructor. -/
def default : NormalDistribution := { mu_ := 0.0, sigma_ := 1.0 }

/-- The `NormalDistribution::NormalDistribution(double mu, double sigma)`
constructor. -/
def construct (mu sigma : ℝ) : Except Exception NormalDistribution :=
  let self : NormalDistribution := { mu_ := mu, sigma_ := sigma }
  if self.sigma_ ≤ 0 then .error .NormalDistributionNonPositiveSigma
  else .ok self

/-- The `NormalDistribution::pdf` member function. -/
def pdf (self : NormalDistribution) (x : ℝ) : ℝ :=
  let factor := 1 / (self.sigma_ * Real.sqrt (2 * numbers.PI))
  let z := (x - self.mu_) / self.sigma_
  factor * Real.exp (-0.5 * z * z)

def RT2PI : ℝ := Real.sqrt (4.0 * Real.arccos 0.0)
def SPLIT : ℝ := 7.07106781186547
def N0 : ℝ := 220.206867912376
def N1 : ℝ := 221.213596169931
def N2 : ℝ := 112.079291497871
def N3 : ℝ := 33.912866078383
def N4 : ℝ := 6.37396220353165
def N5 : ℝ := 0.700383064443688
def N6 : ℝ := 3.52624965998911e-02
def M0 : ℝ := 440.413735824752
def M1 : ℝ := 793.826512519948
def M2 : ℝ := 637.333633378831
def M3 : ℝ := 296.564248779674
def M4 : ℝ := 86.7807322029461
def M5 : ℝ := 16.064177579207
def M6 : ℝ := 1.75566716318264
def M7 : ℝ := 8.83883476483184e-02

/-- The numerator `n` of the rational approximation in `cdf`. -/
def cdfNum (z : ℝ) : ℝ :=
  (((((N6 * z + N5) * z + N4) * z + N3) * z + N2) * z + N1) * z + N0

/-- The denominator `d` of the rational approximation in `cdf`. -/
def cdfDen (z : ℝ) : ℝ :=
  ((((((M7 * z + M6) * z + M5) * z + M4) * z + M3) * z + M2) * z + M1) * z + M0

/-- The continued fraction `f` of the tail branch in `cdf`. -/
def cdfTail (z : ℝ) : ℝ :=
  z + 1.0 / (z + 2.0 / (z + 3.0 / (z + 4.0 / (z + 13.0 / 20.0))))

/-- The value of the local `c` of `cdf` when the function returns. -/
def cdfC (z : ℝ) : ℝ :=
  if z ≤ 37.0 then
    let e := Real.exp (-z * z / 2.0)
    if z < SPLIT then
      let n := cdfNum z
      let d := cdfDen z
      e * n / d
    else
      let f := cdfTail z
      e / (RT2PI * f)
  else 0.0

/-- The `NormalDistribution::cdf` member function. -/
def cdf (self : NormalDistribution) (x : ℝ) : ℝ :=
  let z := |(x - self.mu_) / self.sigma_|
  let c := cdfC z
  if x ≤ 0.0 then c else 1 - c

end NormalDistribution

/-! ## `blackscholes.cpp` -/

/-- The members of a `BlackScholesClosedForm` while its constructor runs, in
the declaration order of `blackscholes.h`; `none` is a member that is not
initialised yet. -/
structure Members where
  S_ : Option ℝ := none
  K_ : Option ℝ := none
  r_ : Option ℝ := none
  q_ : Option ℝ := none
  sigma_ : Option ℝ := none
  T_ : Option ℝ := none
  call_put_flag : Option ℤ := none
  future_flag : Option ℤ := none
  mu : Option ℝ := none
  F : Option ℝ := none
  df : Option ℝ := none
  d1 : Option ℝ := none
  d2 : Option ℝ := none
  Nd1 : Option ℝ := none
  Nd2 : Option ℝ := none
  nd1 : Option ℝ := none
  nd2 : Option ℝ := none

/-- The `struct BlackScholesClosedForm` of `blackscholes.h`, fully
constructed. -/
structure BlackScholesClosedForm where
  S_ : ℝ
  K_ : ℝ
  r_ : ℝ
  q_ : ℝ
  sigma_ : ℝ
  T_ : ℝ
  call_put_flag : ℤ
  future_flag : ℤ
  mu : ℝ
  F : ℝ
  df : ℝ
  d1 : ℝ
  d2 : ℝ
  Nd1 : ℝ
  Nd2 : ℝ
  nd1 : ℝ
  nd2 : ℝ

namespace BlackScholesClosedForm

def set_future_flag (is_future : Bool) : ℤ :=
  if is_future then 0 else 1

def set_call_put_flag (is_call : Bool) : ℤ :=
  if is_call then 1 else -1

def compute_df (self : Members) : Option ℝ := do
  let r_ ← self.r_
  let T_ ← self.T_
  pure (Real.exp (-r_ * T_))

def compute_mu (self : Members) : Option ℝ := do
  let future_flag ← self.future_flag
  let r_ ← self.r_
  let q_ ← self.q_
  pure ((future_flag : ℝ) * (r_ - q_))

def compute_F (self : Members) : Option ℝ := do
  let S_ ← self.S_
  let mu ← self.mu
  let T_ ← self.T_
  pure (S_ * Real.exp (mu * T_))

def compute_d1 (self : Members) : Option ℝ := do
  let F ← self.F
  let K_ ← self.K_
  let T_ ← self.T_
  let sigma_ ← self.sigma_
  pure ((Real.log (F / K_) + T_ * 0.5 * sigma_ * sigma_) / (sigma_ * Real.sqrt T_))

def compute_d2 (self : Members) : Option ℝ := do
  let d1 ← self.d1
  let sigma_ ← self.sigma_
  let T_ ← self.T_
  pure (d1 - sigma_ * Real.sqrt T_)

def compute_nd1 (self : Members) : Option ℝ := do
  let d1 ← self.d1
  let stdnorm := NormalDistribution.default
  pure (stdnorm.pdf d1)

def compute_nd2 (self : Members) : Option ℝ := do
  let d2 ← self.d2
  let stdnorm := NormalDistribution.default
  pure (stdnorm.pdf d2)

def compute_Nd1 (self : Members) : Option ℝ := do
  let call_put_flag ← self.call_put_flag
  let d1 ← self.d1
  let stdnorm := NormalDistribution.default
  pure (stdnorm.cdf ((call_put_flag : ℝ) * d1))

def compute_Nd2 (self : Members) : Option ℝ := do
  let call_put_flag ← self.call_put_flag
  let d2 ← self.d2
  let stdnorm := NormalDistribution.default
  pure (stdnorm.cdf ((call_put_flag : ℝ) * d2))

/-- The member initialisation of the constructor. The initializer
expressions are those of the initializer list of `blackscholes.cpp`; they run
in the declaration order of `blackscholes.h`: `S_, K_, r_, q_, sigma_, T_,
call_put_flag, future_flag, mu, F, df, d1, d2, Nd1, Nd2, nd1, nd2`. -/
def memberInit (S K r q sigma T : ℝ) (is_call is_future : Bool) : Option Members := do
  let self : Members := {}
  let self := { self with S_ := some S }
  let self := { self with K_ := some K }
  let self := { self with r_ := some r }
  let self := { self with q_ := some q }
  let self := { self with sigma_ := some sigma }
  let self := { self with T_ := some T }
  let self := { self with call_put_flag := some (set_call_put_flag is_call) }
  let self := { self with future_flag := some (set_future_flag is_future) }
  let v ← compute_mu self
  let self := { self with mu := some v }
  let v ← compute_F self
  let self := { self with F := some v }
  let v ← compute_df self
  let self := { self with df := some v }
  let v ← compute_d1 self
  let self := { self with d1 := some v }
  let v ← compute_d2 self
  let self := { self with d2 := some v }
  let v ← compute_Nd1 self
  let self := { self with Nd1 := some v }
  let v ← compute_Nd2 self
  let self := { self with Nd2 := some v }
  let v ← compute_nd1 self
  let self := { self with nd1 := some v }
  let v ← compute_nd2 self
  let self := { self with nd2 := some v }
  pure self

/-- The object once every member initializer has run. -/
noncomputable def ofMembers (m : Members) : Option BlackScholesClosedForm := do
  pure {
    S_ := ← m.S_, K_ := ← m.K_, r_ := ← m.r_, q_ := ← m.q_,
    sigma_ := ← m.sigma_, T_ := ← m.T_,
    call_put_flag := ← m.call_put_flag, future_flag := ← m.future_flag,
    mu := ← m.mu, F := ← m.F, df := ← m.df, d1 := ← m.d1, d2 := ← m.d2,
    Nd1 := ← m.Nd1, Nd2 := ← m.Nd2, nd1 := ← m.nd1, nd2 := ← m.nd2 }

/-- The `BlackScholesClosedForm::BlackScholesClosedForm` constructor: the
member initialisation, then the two checks of the constructor body. -/
def construct (S K r q sigma T : ℝ) (is_call is_future : Bool) :
    Except Exception BlackScholesClosedForm :=
  match (memberInit S K r q sigma T is_call is_future).bind ofMembers with
  | none => .error .IndeterminateMemberRead
  | some self =>
    if self.sigma_ ≤ 0 then .error .BlackScholesNonPositiveImpliedVolatility
    else if self.T_ ≤ 0 then .error .BlackScholesNonPositiveYearFraction
    else .ok self

def price (self : BlackScholesClosedForm) : ℝ :=
  self.df * self.call_put_flag * (self.F * self.Nd1 - self.K_ * self.Nd2)

def delta (self : BlackScholesClosedForm) : ℝ :=
  self.df * self.call_put_flag * Real.exp (self.mu * self.T_) * self.Nd1

def gamma (self : BlackScholesClosedForm) : ℝ :=
  let drift := Real.exp (self.mu * self.T_)
  self.df * drift * drift * self.nd1 / (self.F * self.sigma_ * Real.sqrt self.T_)

def vega (self : BlackScholesClosedForm) : ℝ :=
  self.F * self.df * self.nd1 * Real.sqrt self.T_

def rho (self : BlackScholesClosedForm) : ℝ :=
  if self.future_flag = 0 then
    -self.T_ * self.df * self.price
  else
    self.call_put_flag * self.K_ * self.T_ * self.Nd2 * self.df

def epsilon (self : BlackScholesClosedForm) : ℝ :=
  if self.future_flag = 0 then
    0.0
  else
    -self.call_put_flag * self.F * self.T_ * self.Nd1 * self.df

/-- The object that the member initialisation produces, written out: every
initializer finds the members it reads already initialised. -/
def initialised (S K r q sigma T : ℝ) (is_call is_future : Bool) : BlackScholesClosedForm :=
  let flag : ℤ := set_call_put_flag is_call
  let mu : ℝ := (set_future_flag is_future : ℝ) * (r - q)
  let F : ℝ := S * Real.exp (mu * T)
  let d1 : ℝ := (Real.log (F / K) + T * 0.5 * sigma * sigma) / (sigma * Real.sqrt T)
  let d2 : ℝ := d1 - sigma * Real.sqrt T
  { S_ := S, K_ := K, r_ := r, q_ := q, sigma_ := sigma, T_ := T,
    call_put_flag := flag, future_flag := set_future_flag is_future,
    mu := mu, F := F, df := Real.exp (-r * T), d1 := d1, d2 := d2,
    Nd1 := NormalDistribution.default.cdf ((flag : ℝ) * d1),
    Nd2 := NormalDistribution.default.cdf ((flag : ℝ) * d2),
    nd1 := NormalDistribution.default.pdf d1,
    nd2 := NormalDistribution.default.pdf d2 }

end BlackScholesClosedForm

/-! ## `svi.cpp`: the functions of the C library -/

/-- The `pow` of the C library on finite arguments. `none` stands for a result
that is not a finite number: NaN for a negative base with an exponent that is
not an integer, and an infinity for the base `0` with a negative exponent. -/
def c_pow (x y : ℝ) : Option ℝ :=
  if (x < 0 ∧ ((⌊y⌋ : ℤ) : ℝ) ≠ y) ∨ (x = 0 ∧ y < 0) then none else some (x ^ y)

/-- The `sqrt` of the C library: NaN, here `none`, for a negative argument. -/
def c_sqrt (x : ℝ) : Option ℝ :=
  if x < 0 then none else some (Real.sqrt x)

/-- The conversion of a `double` to `int`: truncation toward zero. When the
truncated value is outside the range of `int` the language leaves the
behaviour undefined; the value taken here is the one the x86-64 conversion
gives, `-2^31`. -/
def to_int (x : ℝ) : ℤ :=
  let n : ℤ := if 0 ≤ x then ⌊x⌋ else ⌈x⌉
  if -2 ^ 31 ≤ n ∧ n < 2 ^ 31 then n else -2 ^ 31

/-- The `abs` that `svi.cpp` calls. The file includes `<iostream>` only, and
the `abs` it finds in the global namespace is the `int abs(int)` of the C
library: the `double` argument is converted to `int`, and the result is an
`int`. `abs(-2^31)` overflows and is `-2^31`. -/
def c_abs (x : ℝ) : ℤ :=
  let n : ℤ := to_int x
  if n = -2 ^ 31 then -2 ^ 31 else |n|

/-- The wrap-around of `int` arithmetic. The language leaves the overflow of a
signed integer undefined; the value taken here is the two's complement
one. -/
def wrap_int (n : ℤ) : ℤ := (n + 2 ^ 31) % 2 ^ 32 - 2 ^ 31

/-! ## `svi.cpp`: `struct SVI` -/

/-- The `struct SVI` of `svi.h`, members in declaration order. -/
structure SVI where
  vt_ : ℝ
  ut_ : ℝ
  ct_ : ℝ
  pt_ : ℝ
  vmt_ : ℝ
  T_ : ℝ
  a : ℝ
  beta : ℝ
  alpha : ℝ
  b : ℝ
  m : ℝ
  s : ℝ
  p : ℝ
  dmdt : ℝ
  dadt : ℝ
  dsdt : ℝ
  dbdt : ℝ

namespace SVI

def get_b (self : SVI) : Except Exception ℝ :=
  let b_ := Real.sqrt (self.vt_ * self.T_) * (self.ct_ + self.pt_) / 2
  if b_ < 0 then .error .SVIWrongParameterValue
  else .ok b_

def get_p (self : SVI) : Except Exception ℝ :=
  let p_ : ℝ :=
    if self.b = 0 then 0.0
    else 1 - self.pt_ * Real.sqrt (self.vt_ * self.T_) / self.b
  if ((c_abs p_ : ℤ) : ℝ) > 1.0 then .error .SVIWrongParameterValue
  else .ok p_

def get_beta (self : SVI) : Except Exception ℝ :=
  if self.b = 0 then .ok 1.0
  else
    let beta_ := self.p - 2 * self.ut_ * Real.sqrt (self.vt_ * self.T_) / self.b
    if ((c_abs beta_ : ℤ) : ℝ) > 1.0 then .error .SVIWrongParameterValue
    else .ok beta_

def get_alpha (self : SVI) : ℝ :=
  if self.beta < 0 then -Real.sqrt (1 / (self.beta * self.beta) - 1)
  else if self.beta > 0 then Real.sqrt (1 / (self.beta * self.beta) - 1)
  else 0

def get_m (self : SVI) : ℝ :=
  if self.b = 0 then 0.0
  else
    let intterm : ℝ :=
      if self.alpha < 0 then -Real.sqrt (1 + self.alpha * self.alpha)
      else Real.sqrt (1 + self.alpha * self.alpha)
    self.T_ * (self.vmt_ - self.vt_)
      / (self.b * (-self.p + intterm - self.alpha * Real.sqrt (1 - self.p * self.p)))

def get_a (self : SVI) : ℝ :=
  if self.m = 0 then
    self.T_ * (self.vmt_ + self.vt_ * Real.sqrt (1 - self.p * self.p))
      / (1 - Real.sqrt (1 - self.p * self.p))
  else
    let s_ := self.alpha * self.m
    self.T_ * self.vmt_ - self.b * s_ * Real.sqrt (1 - self.p * self.p)

def get_s (self : SVI) : ℝ :=
  if self.m = 0 then
    if self.b = 0 then 1.0
    else (self.vt_ * self.T_ - self.a) / self.b
  else self.alpha * self.m

def get_dbdt (self : SVI) : ℝ :=
  self.vt_ * (self.ct_ + self.pt_) / (4 * Real.sqrt self.T_)

/-- The `SVI::get_dmdt` member function. Both `double factor = ...`
statements of the source declare a new variable inside their branch, so the
`factor` of the return statement is the outer one, which is never assigned:
its value is the argument `factor`. -/
def get_dmdt (self : SVI) (factor : ℝ) : ℝ :=
  if self.b = 0 then 0.0
  else (self.vt_ - self.vmt_) * (self.b - self.T_ * self.dbdt) / (factor * self.b * self.b)

def get_dsdt (self : SVI) : ℝ :=
  if self.m = 0 then
    if self.b = 0 then 0
    else (self.b * (self.vt_ - self.a / self.T_) + self.dbdt * (self.vt_ * self.T_ - self.a))
      / (self.b * self.b)
  else self.alpha * self.dmdt

def get_dadt (self : SVI) : ℝ :=
  if self.m = 0 then self.a / self.T_
  else self.vmt_ - Real.sqrt (1 - self.p * self.p) * (self.dbdt * self.s + self.dsdt * self.b)

/-- The member initialisation of `SVI::SVI`. The initializer expressions are
those of the initializer list of `svi.cpp`; they run in the declaration order
of `svi.h`: `vt_, ut_, ct_, pt_, vmt_, T_, a, beta, alpha, b, m, s, p, dmdt,
dadt, dsdt, dbdt`. `mem` is the content of the storage before the
constructor runs. -/
def memberInit (mem : SVI) (factor : ℝ) (vt ut ct pt vmt t : ℝ) : Except Exception SVI := do
  let self := { mem with vt_ := vt }
  let self := { self with ut_ := ut }
  let self := { self with ct_ := ct }
  let self := { self with pt_ := pt }
  let self := { self with vmt_ := vmt }
  let self := { self with T_ := t }
  let self := { self with a := get_a self }
  let v ← get_beta self
  let self := { self with beta := v }
  let self := { self with alpha := get_alpha self }
  let v ← get_b self
  let self := { self with b := v }
  let self := { self with m := get_m self }
  let self := { self with s := get_s self }
  let v ← get_p self
  let self := { self with p := v }
  let self := { self with dmdt := get_dmdt self factor }
  let self := { self with dadt := get_dadt self }
  let self := { self with dsdt := get_dsdt self }
  let self := { self with dbdt := get_dbdt self }
  pure self

/-- The checks of the body of `SVI::SVI`. In the last one the square root of
a negative `1 - p*p` is NaN, and the comparison of a NaN with `0` is false. -/
def bodyChecks (self : SVI) : Except Exception SVI :=
  if self.vt_ ≤ 0 then .error .SVIWrongParameterValue
  else if self.vmt_ ≤ 0 then .error .SVIWrongParameterValue
  else if self.T_ ≤ 0 then .error .SVIWrongParameterValue
  else if self.s ≤ 0 then .error .SVIWrongParameterValue
  else if 0 ≤ 1 - self.p * self.p
      ∧ self.a + self.b * self.s * Real.sqrt (1 - self.p * self.p) < 0 then
    .error .SVIWrongParameterValue
  else .ok self

/-- The `SVI::SVI` constructor: the member initialisation, then the checks
of the constructor body. -/
def construct (mem : SVI) (factor : ℝ) (vt ut ct pt vmt t : ℝ) : Except Exception SVI :=
  (memberInit mem factor vt ut ct pt vmt t).bind bodyChecks

def butterfly_arbitrage_check (self : SVI) : Bool :=
  let cond1 := Real.sqrt (self.vt_ * self.T_) * max self.ct_ self.pt_
  let cond2 := (self.ct_ + self.pt_) * max self.ct_ self.pt_
  if cond1 < 2 ∧ cond2 ≤ 2 then true
  else false

def total_variance (self : SVI) (k : ℝ) : ℝ :=
  self.a + self.b * (self.p * (k - self.m) + Real.sqrt ((k - self.m) * (k - self.m) + self.s * self.s))

def implied_variance (self : SVI) (k : ℝ) : ℝ :=
  self.total_variance k / self.T_

def implied_volatility (self : SVI) (k : ℝ) : ℝ :=
  Real.sqrt (self.implied_variance k)

def dwdk (self : SVI) (k : ℝ) : ℝ :=
  let km := k - self.m
  self.b * (self.p + km / Real.sqrt (km * km + self.s * self.s))

def dw2dk2 (self : SVI) (k : ℝ) : ℝ :=
  Real.sqrt (self.implied_variance k)

def risk_neutral_density (self : SVI) (k : ℝ) : ℝ :=
  let dwdk_ := self.dwdk k
  let w := self.total_variance k
  let term1 := 1 - k * dwdk_ / (2 * w)
  let term2 := 0.25 * dwdk_ * dwdk_ * (0.25 + 1 / w)
  term1 * term1 - term2 + 0.5 * self.dw2dk2 k

/-- Storage filled with zeros, as for an object of static storage duration
before its constructor runs. -/
def zeroStorage : SVI :=
  { vt_ := 0, ut_ := 0, ct_ := 0, pt_ := 0, vmt_ := 0, T_ := 0, a := 0, beta := 0, alpha := 0,
    b := 0, m := 0, s := 0, p := 0, dmdt := 0, dadt := 0, dsdt := 0, dbdt := 0 }

/-- The slice for `vt = 1, ut = -3/10, ct = 1, pt = 1, vmt = 2, T = 1` whose
derived members are the values that the initializer expressions give when
they are read in the order of the initializer list (`b, p, beta, alpha, m, a,
s, dbdt, dmdt, dsdt, dadt`, with `factor = 1/3` the value of its else-branch). -/
def sampleSlice : SVI :=
  { vt_ := 1, ut_ := -3 / 10, ct_ := 1, pt_ := 1, vmt_ := 2, T_ := 1,
    a := -2, beta := 3 / 5, alpha := 4 / 3, b := 1, m := 3, s := 4, p := 0,
    dmdt := -3 / 2, dadt := 2, dsdt := -2, dbdt := 1 / 2 }

/-- Storage left over from earlier use: `alpha = b = m = 1`, all else zero. -/
def staleStorage : SVI :=
  { vt_ := 0, ut_ := 0, ct_ := 0, pt_ := 0, vmt_ := 0, T_ := 0, a := 0, beta := 0, alpha := 1,
    b := 1, m := 1, s := 0, p := 0, dmdt := 0, dadt := 0, dsdt := 0, dbdt := 0 }

/-- The flat slice that `SVI(2, 0, 0, 0, 1, 1)` gives in `staleStorage`. -/
def staleSlice : SVI :=
  { vt_ := 2, ut_ := 0, ct_ := 0, pt_ := 0, vmt_ := 1, T_ := 1, a := 0, beta := 0, alpha := 0,
    b := 0, m := 0, s := 1, p := 0, dmdt := 0, dadt := 0, dsdt := 0, dbdt := 0 }

end SVI

/-! ## `svi.cpp`: `struct SSVI` -/

/-- The `struct SSVI` of `svi.h`, members in declaration order. -/
structure SSVI where
  rho_ : ℝ
  nu_ : ℝ
  gamma_ : ℝ

namespace SSVI

/-- The `SSVI::SSVI` constructor. The initializer list is
`rho_(rho), nu_(nu_), gamma_(gamma)`: the member `nu_` is initialised from
itself, that is from the prior content `mem.nu_` of the storage, and the
argument `nu` is only tested. -/
def construct (mem : SSVI) (rho nu gamma : ℝ) : Except Exception SSVI :=
  let self := { mem with rho_ := rho }
  let self := { self with nu_ := self.nu_ }
  let self := { self with gamma_ := gamma }
  if c_abs rho > 1 then .error .SSVIWrongParameterValue
  else if gamma > 1 ∨ gamma < 0 then .error .SSVIWrongParameterValue
  else if nu < 0 then .error .SSVIWrongParameterValue
  else .ok self

/-- The `SSVI::prmtrzt` member function, where `pow` yields a number, as it
does for a positive `atm_total_variance`; `prmtrzt_double` says where it does
not. -/
def prmtrzt (self : SSVI) (atm_total_variance : ℝ) : ℝ :=
  self.nu_ * atm_total_variance ^ self.gamma_

def dprmtrzt (self : SSVI) (atm_total_variance : ℝ) : ℝ :=
  (1 - self.gamma_) * self.prmtrzt atm_total_variance

def butterfly_arbitrage_check (self : SSVI) (atm_total_variance : ℝ) : Bool :=
  let prmtrzt_ := self.prmtrzt atm_total_variance
  let cond1 := atm_total_variance * prmtrzt_ * ((wrap_int (1 + c_abs self.rho_) : ℤ) : ℝ)
  let cond2 := cond1 * prmtrzt_
  if cond1 ≤ 4 ∧ cond2 ≤ 4 then true
  else false

def calendar_spread_arbitrage_check (self : SSVI) (atm_total_variance : ℝ) : Bool :=
  let prmtrzt_ := self.prmtrzt atm_total_variance
  let dprmtrzt_ := self.dprmtrzt atm_total_variance
  let value := prmtrzt_ * (1 + Real.sqrt (1 - self.rho_ * self.rho_)) / (self.rho_ * self.rho_)
  if dprmtrzt_ ≥ 0 ∧ dprmtrzt_ ≤ value then true
  else false

def total_variance (self : SSVI) (k atm_total_variance : ℝ) : ℝ :=
  let prmtrzt_ := self.prmtrzt atm_total_variance
  let term1 := prmtrzt_ * k + self.rho_
  let term2 := Real.sqrt (term1 * term1 + (1 - self.rho_ * self.rho_))
  0.5 * atm_total_variance * (1 + self.rho_ * k * prmtrzt_ + term2)

/-- The `double` that `SSVI::prmtrzt` returns, `none` when `pow` does not
yield a finite number. Where it is a number, it is `prmtrzt`. -/
def prmtrzt_double (self : SSVI) (atm_total_variance : ℝ) : Option ℝ :=
  (c_pow atm_total_variance self.gamma_).map (fun w => self.nu_ * w)

/-- The `double` that `SSVI::total_variance` returns, `none` when it is NaN
or infinite: that is the case when `prmtrzt` is, and when the argument of
`sqrt` is negative. Where it is a number, it is `total_variance`. -/
def total_variance_double (self : SSVI) (k atm_total_variance : ℝ) : Option ℝ :=
  match self.prmtrzt_double atm_total_variance with
  | none => none
  | some prmtrzt_ =>
    let term1 := prmtrzt_ * k + self.rho_
    match c_sqrt (term1 * term1 + (1 - self.rho_ * self.rho_)) with
    | none => none
    | some term2 =>
      some (0.5 * atm_total_variance * (1 + self.rho_ * k * prmtrzt_ + term2))

def implied_variance (self : SSVI) (k atm_total_variance t : ℝ) : ℝ :=
  self.total_variance k atm_total_variance / t

def implied_volatility (self : SSVI) (k atm_total_variance t : ℝ) : ℝ :=
  Real.sqrt (self.implied_variance k atm_total_variance t)

/-- The `SSVI::get_svi` member function; `mem` and `factor` are the prior
storage content and the unassigned local of the `SVI` construction. -/
def get_svi (self : SSVI) (mem : SVI) (factor : ℝ) (atm_total_variance t : ℝ) :
    Except Exception SVI :=
  let f := self.prmtrzt atm_total_variance * Real.sqrt atm_total_variance
  SVI.construct mem factor
    (atm_total_variance / t)
    (0.5 * self.rho_ * f)
    (0.5 * (1 + self.rho_) * f)
    (0.5 * (1 - self.rho_) * f)
    (atm_total_variance * (1 - self.rho_ * self.rho_) / t)
    t

/-- Storage filled with zeros. -/
def zeroStorage : SSVI := { rho_ := 0, nu_ := 0, gamma_ := 0 }

/-- The surface `rho = 3/5, nu = 1, gamma = 1/2`. -/
def sampleSurface : SSVI := { rho_ := 3 / 5, nu_ := 1, gamma_ := 1 / 2 }

end SSVI

namespace SVI

/-- The arguments `(rho_, 2*ut_/rho_, .5)` that `SVI::get_power_law_ssvi`
passes to the `SSVI` constructor. -/
def power_law_ssvi_args (self : SVI) : ℝ × ℝ × ℝ :=
  let rho_ := 1 / (1 + self.pt_ / self.ut_)
  (rho_, 2 * self.ut_ / rho_, 0.5)

/-- The `SVI::get_power_law_ssvi` member function; `mem` is the prior
content of the storage of the returned `SSVI`. -/
def get_power_law_ssvi (self : SVI) (mem : SSVI) : Except Exception SSVI :=
  SSVI.construct mem self.power_law_ssvi_args.1 self.power_law_ssvi_args.2.1
    self.power_law_ssvi_args.2.2

/-- The values that the initializer expressions of `SVI(1, 3/10, 4/5, 1/5,
16/25, 1)` give when they are read in the order of the initializer list; these
are the arguments that `get_svi(1, 1)` passes for `rho = 3/5`, `nu = 1`,
`gamma = 1/2`. The unassigned `factor` is `-6/5`, the value of its
`alpha < 0` branch. -/
def surfaceSliceStorage : SVI :=
  { vt_ := 1, ut_ := 3 / 10, ct_ := 4 / 5, pt_ := 1 / 5, vmt_ := 16 / 25, T_ := 1,
    a := 24 / 25, beta := -3 / 5, alpha := -4 / 3, b := 1 / 2, m := 3 / 5, s := -4 / 5,
    p := 3 / 5, dmdt := -3 / 10, dadt := 16 / 25, dsdt := 2 / 5, dbdt := 1 / 4 }

/-- The flat slice for `vt = 1, ut = ct = pt = 0, vmt = 16/25, T = 1` that the
constructor returns in zero-filled storage. Its `a` is the value of `get_a`'s
`m == 0` branch, a quotient with divisor `1 - sqrt(1 - 0) = 0`, which is `0`
in this model. -/
def flatZeroSlice : SVI :=
  { vt_ := 1, ut_ := 0, ct_ := 0, pt_ := 0, vmt_ := 16 / 25, T_ := 1, a := 0, beta := 1,
    alpha := 0, b := 0, m := 0, s := 1, p := 0, dmdt := 0, dadt := 0, dsdt := 0, dbdt := 0 }

/-- What `SVI(1, -3/10, 1, 1, 2, 1)` gives in the storage of `sampleSlice`
when the unassigned local `factor` of `get_dmdt` holds `1`. -/
def shadowSlice : SVI := { sampleSlice with dmdt := -1 / 2, dsdt := -2 / 3 }

/-- What `SVI(2, 0, 0, 0, 2, 1)` gives in `staleStorage`: the flat slice that
`get_svi(2, 1)` requests for `rho = 0` and stored `nu_ = 0`. -/
def staleFlatSlice : SVI := { staleSlice with vmt_ := 2, a := 1, dadt := 1 }

/-- What `SVI(4, -3/20, 1, 1, 6, 1)` gives in `staleStorage` when the
unassigned local `factor` of `get_dmdt` holds `1`. -/
def steepSlice : SVI :=
  { vt_ := 4, ut_ := -3 / 20, ct_ := 1, pt_ := 1, vmt_ := 6, T_ := 1, a := 5, beta := 3 / 5,
    alpha := 4 / 3, b := 2, m := 3, s := 4, p := 0, dmdt := -1, dadt := 6, dsdt := -4 / 3,
    dbdt := 2 }

/-- What `SVI(1, -3/10, 5, -1, 1, 1)` gives in the storage of `sampleSlice`
when the unassigned local `factor` of `get_dmdt` holds `1`: a slice with the
negative wing slope `pt = -1` and `p = 3/2`. -/
def wingSlice : SVI :=
  { vt_ := 1, ut_ := -3 / 10, ct_ := 5, pt_ := -1, vmt_ := 1, T_ := 1, a := -3, beta := 3 / 5,
    alpha := 4 / 3, b := 2, m := 0, s := 2, p := 3 / 2, dmdt := 0, dadt := -3, dsdt := 5 / 2,
    dbdt := 1 }

/-- The storage of `sampleSlice` with a stale `m`. -/
def driftStorage : SVI := { sampleSlice with m := 3 / 2 }

/-- What `SVI(1, -3/10, 1, 1, 2, 1)` gives in `driftStorage`. -/
def driftSlice : SVI := { sampleSlice with a := 0 }

end SVI

/-! ## `timestamp.cpp` -/

/-- The `enum EpochTimestampType` of `timestamp.h`. -/
inductive EpochTimestampType where
  | SECONDS
  | MILLISECONDS
  | MICROSECONDS
  | NANOSECONDS
  deriving DecidableEq

/-- The integer value of an enumerator of `EpochTimestampType`. -/
def EpochTimestampType.val : EpochTimestampType → ℤ
  | .SECONDS => 1
  | .MILLISECONDS => 1000
  | .MICROSECONDS => 1000000
  | .NANOSECONDS => 1000000000

/-- The `enum DayCountConvention` of `timestamp.h`. -/
inductive DayCountConvention where
  | ACT360
  | ACT365
  | ACT364
  deriving DecidableEq

/-- The `struct EpochTimestamp` of `timestamp.h`. -/
structure EpochTimestamp where
  tmsp : ℤ
  type_ : EpochTimestampType

/-- The `EpochTimestamp::EpochTimestamp` constructor. -/
def EpochTimestamp.construct (timestamp : ℤ) (type : EpochTimestampType) :
    Except Exception EpochTimestamp :=
  let self : EpochTimestamp := { tmsp := timestamp, type_ := type }
  if self.tmsp < 0 then .error .NegativeEpochTimestamp
  else .ok self

/-- The `struct TimeDelta` of `timestamp.h`. -/
structure TimeDelta where
  d : ℤ
  h : ℤ
  m : ℤ
  s : ℤ
  ms : ℤ
  mcs : ℤ
  ns : ℤ

/-- The nearest `double` to a natural number (IEEE binary64, round to
nearest, ties to even): the number itself below `2^53`, and otherwise the
nearest multiple of `2^e`, where `e` is the binary exponent of the number
minus `52`. -/
def nearest_double (a : ℕ) : ℕ :=
  let e : ℕ := Nat.log 2 a - 52
  let q : ℕ := a / 2 ^ e
  let r : ℕ := a % 2 ^ e
  if 2 ^ e < 2 * r ∨ (2 ^ e = 2 * r ∧ q % 2 = 1) then (q + 1) * 2 ^ e else q * 2 ^ e

/-- The conversion of an integer to `double`, and the rounding to `double`
of an integer-valued result. Every `double` of `convert_timestamp`,
`get_total_nanoseconds` and `get_year_fraction` but the final quotient holds an
integer, and is represented by that integer. -/
def to_double (n : ℤ) : ℤ :=
  if 0 ≤ n then (nearest_double n.natAbs : ℤ) else -(nearest_double n.natAbs : ℤ)

/-- The wrap-around of `long long` arithmetic. The language leaves the
overflow of a signed integer undefined; the value taken here is the two's
complement one. -/
def wrap_long_long (n : ℤ) : ℤ := (n + 2 ^ 63) % 2 ^ 64 - 2 ^ 63

/-- The `round` of the C library: to the nearest integer, halfway cases away
from zero. -/
def c_round (x : ℝ) : ℝ :=
  if 0 ≤ x then ((⌊x + 1 / 2⌋ : ℤ) : ℝ) else ((⌈x - 1 / 2⌉ : ℤ) : ℝ)

/-- The conversion of a `double` to `long long`: truncation toward zero. When
the truncated value is outside the range of `long long` the language leaves
the behaviour undefined; the value taken here is the one the x86-64 conversion
gives, `-2^63`. -/
def to_long_long (x : ℝ) : ℤ :=
  let n : ℤ := if 0 ≤ x then ⌊x⌋ else ⌈x⌉
  if -2 ^ 63 ≤ n ∧ n < 2 ^ 63 then n else -2 ^ 63

/-- The `TimeDelta::get_total_nanoseconds` member function: the sum is
computed in `long long` and converted to the `double` that is returned. -/
def TimeDelta.get_total_nanoseconds (self : TimeDelta) : ℝ :=
  let day_s : ℤ := wrap_long_long (self.d * 24 * 60 * 60)
  let hour_s : ℤ := wrap_long_long (self.h * 60 * 60)
  let min_s : ℤ := wrap_long_long (self.m * 60)
  let total_seconds : ℤ := wrap_long_long (self.s + day_s + hour_s + min_s)
  let total_milliseconds : ℤ := wrap_long_long (total_seconds * 1000 + self.ms)
  let total_microseconds : ℤ := wrap_long_long (total_milliseconds * 1000 + self.mcs)
  ((to_double (wrap_long_long (total_microseconds * 1000 + self.ns)) : ℤ) : ℝ)

/-- The `convert_timestamp` function. `type1/type2` divides two `long long`
values, so the quotient is truncated before it is stored in the `double`
`factor`; in `factor*timestamp.tmsp` the value is converted to `double` and the
product is rounded to `double`; the rounded product is converted back to
`long long`. -/
def convert_timestamp (timestamp : EpochTimestamp) (type : EpochTimestampType) :
    Except Exception EpochTimestamp :=
  let type1 : ℤ := type.val
  let type2 : ℤ := timestamp.type_.val
  let factor : ℤ := to_double (Int.tdiv type1 type2)
  let product : ℤ := to_double (factor * to_double timestamp.tmsp)
  let new_tmsp : ℤ := to_long_long (c_round ((product : ℤ) : ℝ))
  EpochTimestamp.construct new_tmsp type

def get_time_delta (start_timestamp end_timestamp : EpochTimestamp)
    (delta_type : EpochTimestampType) : Except Exception TimeDelta := do
  let new_start_timestamp ← convert_timestamp start_timestamp delta_type
  let new_end_timestamp ← convert_timestamp end_timestamp delta_type
  let delta : ℤ := wrap_long_long (new_end_timestamp.tmsp - new_start_timestamp.tmsp)
  match delta_type with
  | .SECONDS => pure { d := 0, h := 0, m := 0, s := delta, ms := 0, mcs := 0, ns := 0 }
  | .MILLISECONDS => pure { d := 0, h := 0, m := 0, s := 0, ms := delta, mcs := 0, ns := 0 }
  | .MICROSECONDS => pure { d := 0, h := 0, m := 0, s := 0, ms := 0, mcs := delta, ns := 0 }
  | .NANOSECONDS => pure { d := 0, h := 0, m := 0, s := 0, ms := 0, mcs := 0, ns := delta }

/-- The `get_year_fraction` function. The `double` that
`get_total_nanoseconds` returns is converted back to `long long`; the result is
the quotient of two `double` values. -/
def get_year_fraction (start_timestamp end_timestamp : EpochTimestamp)
    (convention : DayCountConvention) : Except Exception ℝ := do
  let dt ← get_time_delta start_timestamp end_timestamp .NANOSECONDS
  let total_ns : ℤ := to_long_long dt.get_total_nanoseconds
  if total_ns < 0 then throw Exception.NegativeYearFraction
  let day_in_s : ℤ := 24 * 60 * 60
  let day_in_ns : ℤ := day_in_s * EpochTimestampType.NANOSECONDS.val
  match convention with
  | .ACT360 => pure (((to_double total_ns : ℤ) : ℝ) / ((to_double (360 * day_in_ns) : ℤ) : ℝ))
  | .ACT365 => pure (((to_double total_ns : ℤ) : ℝ) / ((to_double (365 * day_in_ns) : ℤ) : ℝ))
  | .ACT364 => pure (((to_double total_ns : ℤ) : ℝ) / ((to_double (364 * day_in_ns) : ℤ) : ℝ))

/-! ## Theorems -/

namespace NormalDistribution

/-- At `z = 0` the rational approximation is `N0/M0 = 1/2`. -/
theorem cdfC_zero : cdfC 0 = 1 / 2 := by
  have h37 : (0 : ℝ) ≤ 37.0 := by norm_num
  have hsplit : (0 : ℝ) < SPLIT := by norm_num [SPLIT]
  simp only [cdfC, if_pos h37, if_pos hsplit]
  norm_num [cdfNum, cdfDen, N0, M0]

/-- The standardised argument of the default distribution is the argument. -/
theorem default_cdf_eq (x : ℝ) :
    default.cdf x = if x ≤ 0 then cdfC |x| else 1 - cdfC |x| := by
  have h0 : (0.0 : ℝ) = 0 := by norm_num
  have h1 : (1.0 : ℝ) = 1 := by norm_num
  simp only [cdf, default, h0, h1, sub_zero, div_one]

/-- Symmetry of the `cdf` of `NormalDistribution()`. -/
theorem default_cdf_add_neg (x : ℝ) : default.cdf x + default.cdf (-x) = 1 := by
  rw [default_cdf_eq, default_cdf_eq, abs_neg]
  rcases lt_trichotomy x 0 with h | h | h
  · rw [if_pos h.le, if_neg (by linarith)]
    ring
  · subst h
    simp [cdfC_zero]
    norm_num
  · rw [if_neg (by linarith), if_pos (by linarith)]
    ring

end NormalDistribution

namespace BlackScholesClosedForm

theorem memberInit_ofMembers (S K r q sigma T : ℝ) (is_call is_future : Bool) :
    (memberInit S K r q sigma T is_call is_future).bind ofMembers
      = some (initialised S K r q sigma T is_call is_future) := by
  rfl

/-- The constructor, with the member initialisation evaluated. -/
theorem construct_eq (S K r q sigma T : ℝ) (is_call is_future : Bool) :
    construct S K r q sigma T is_call is_future
      = if sigma ≤ 0 then .error .BlackScholesNonPositiveImpliedVolatility
        else if T ≤ 0 then .error .BlackScholesNonPositiveYearFraction
        else .ok (initialised S K r q sigma T is_call is_future) := by
  unfold construct
  rw [memberInit_ofMembers]
  rfl

theorem construct_ok (S K r q sigma T : ℝ) (is_call is_future : Bool)
    (hsigma : 0 < sigma) (hT : 0 < T) :
    construct S K r q sigma T is_call is_future
      = .ok (initialised S K r q sigma T is_call is_future) := by
  rw [construct_eq, if_neg (not_le.mpr hsigma), if_neg (not_le.mpr hT)]

/-- C1: construction throws the non-positive-volatility exception whenever
`sigma ≤ 0`, the non-positive-year-fraction exception when `0 < sigma` and
`T ≤ 0`, and returns an object in every other case; so it fails if and only
if `sigma ≤ 0` or `T ≤ 0`. -/
theorem construct_fails_iff (S K r q sigma T : ℝ) (is_call is_future : Bool) :
    (sigma ≤ 0 → construct S K r q sigma T is_call is_future
        = .error .BlackScholesNonPositiveImpliedVolatility) ∧
    (0 < sigma → T ≤ 0 → construct S K r q sigma T is_call is_future
        = .error .BlackScholesNonPositiveYearFraction) ∧
    (0 < sigma → 0 < T → ∃ o, construct S K r q sigma T is_call is_future = .ok o) ∧
    ((∃ e, construct S K r q sigma T is_call is_future = .error e) ↔ (sigma ≤ 0 ∨ T ≤ 0)) := by
  refine ⟨?_, ?_, ?_, ?_⟩
  · intro h
    rw [construct_eq, if_pos h]
  · intro h hT
    rw [construct_eq, if_neg (not_le.mpr h), if_pos hT]
  · intro h hT
    exact ⟨_, construct_ok S K r q sigma T is_call is_future h hT⟩
  · rw [construct_eq]
    by_cases h : sigma ≤ 0
    · simp [h]
    · by_cases hT : T ≤ 0
      · simp [h, hT]
      · simp [h, hT]

/-- C2: for `0 < sigma` and `0 < T` the constructor returns an object (no
initializer reads a member that is not initialised yet) and its `price()` is
`df*flag*(F*N(flag*d1) - K*N(flag*d2))`, with `flag`, `futureFlag`, `mu`,
`df`, `F`, `d1`, `d2` as in the claim and `N` the `cdf` of
`NormalDistribution()`; the member initialisation, run in declaration order,
completes. -/
theorem price_closed_form (S K r q sigma T : ℝ) (is_call is_future : Bool)
    (hsigma : 0 < sigma) (hT : 0 < T) :
    (memberInit S K r q sigma T is_call is_future).isSome = true ∧
    ∃ o, construct S K r q sigma T is_call is_future = .ok o ∧
      o.price =
        (let flag : ℝ := if is_call then 1 else -1
         let futureFlag : ℝ := if is_future then 0 else 1
         let mu := futureFlag * (r - q)
         let df := Real.exp (-r * T)
         let F := S * Real.exp (mu * T)
         let d1 := (Real.log (F / K) + T * sigma ^ 2 / 2) / (sigma * Real.sqrt T)
         let d2 := d1 - sigma * Real.sqrt T
         df * flag * (F * NormalDistribution.default.cdf (flag * d1)
           - K * NormalDistribution.default.cdf (flag * d2))) := by
  refine ⟨rfl, _, construct_ok S K r q sigma T is_call is_future hsigma hT, ?_⟩
  have h2 : T * 0.5 * sigma * sigma = T * sigma ^ 2 / 2 := by ring
  cases is_call <;> cases is_future <;>
    simp [price, initialised, set_call_put_flag, set_future_flag, h2]

theorem price_closed_form_witness :
    (memberInit 100 100 0.01 0 0.2 1 true false).isSome = true ∧
    ∃ o, construct 100 100 0.01 0 0.2 1 true false = .ok o ∧
      o.price =
        (let flag : ℝ := if true then 1 else -1
         let futureFlag : ℝ := if false then 0 else 1
         let mu := futureFlag * (0.01 - 0)
         let df := Real.exp (-0.01 * 1)
         let F := 100 * Real.exp (mu * 1)
         let d1 := (Real.log (F / 100) + 1 * 0.2 ^ 2 / 2) / (0.2 * Real.sqrt 1)
         let d2 := d1 - 0.2 * Real.sqrt 1
         df * flag * (F * NormalDistribution.default.cdf (flag * d1)
           - 100 * NormalDistribution.default.cdf (flag * d2))) :=
  price_closed_form 100 100 0.01 0 0.2 1 true false (by norm_num) (by norm_num)

/-- C3: put-call parity. For `S > 0`, `K > 0`, `sigma > 0`, `T > 0` the call
and the put constructed from the same `(S, K, r, q, sigma, T, isFuture)`
satisfy `call.price() - put.price() = S*exp(-q*T) - K*exp(-r*T)` for a spot
underlying and `= exp(-r*T)*(S - K)` for a future underlying. -/
theorem put_call_parity (S K r q sigma T : ℝ) (is_future : Bool)
    (_hS : 0 < S) (_hK : 0 < K) (hsigma : 0 < sigma) (hT : 0 < T) :
    ∃ call put, construct S K r q sigma T true is_future = .ok call ∧
      construct S K r q sigma T false is_future = .ok put ∧
      call.price - put.price =
        if is_future then Real.exp (-r * T) * (S - K)
        else S * Real.exp (-q * T) - K * Real.exp (-r * T) := by
  refine ⟨_, _, construct_ok S K r q sigma T true is_future hsigma hT,
    construct_ok S K r q sigma T false is_future hsigma hT, ?_⟩
  have hN : ∀ x : ℝ, NormalDistribution.default.cdf (-x)
      = 1 - NormalDistribution.default.cdf x := fun x => by
    linarith [NormalDistribution.default_cdf_add_neg x]
  cases is_future
  · have hexp : S * Real.exp (-q * T) = Real.exp (-r * T) * (S * Real.exp ((r - q) * T)) := by
      rw [mul_left_comm, ← Real.exp_add]
      congr 2
      ring
    simp only [price, initialised, set_call_put_flag, set_future_flag, if_true,
      Bool.false_eq_true, if_false, Int.cast_one, Int.cast_neg, one_mul, neg_one_mul, hN]
    rw [hexp]
    ring
  · simp only [price, initialised, set_call_put_flag, set_future_flag, if_true,
      Bool.false_eq_true, if_false, Int.cast_one, Int.cast_neg, Int.cast_zero, zero_mul,
      Real.exp_zero, mul_one, one_mul, neg_one_mul, hN]
    ring

theorem put_call_parity_witness :
    ∃ call put, construct 100 100 0.01 0 0.2 1 true false = .ok call ∧
      construct 100 100 0.01 0 0.2 1 false false = .ok put ∧
      call.price - put.price =
        if false then Real.exp (-0.01 * 1) * (100 - 100)
        else 100 * Real.exp (-0 * 1) - 100 * Real.exp (-0.01 * 1) :=
  put_call_parity 100 100 0.01 0 0.2 1 false (by norm_num) (by norm_num) (by norm_num)
    (by norm_num)

/-- C6: `rho()` and `epsilon()` branch on the underlying kind. For every
constructed pricer (`0 < sigma`, `0 < T`): with `isFuture = true`,
`rho() = -T*df*price()` and `epsilon() = 0`; with `isFuture = false`,
`rho() = flag*K*T*N(flag*d2)*df` and `epsilon() = -flag*F*T*N(flag*d1)*df`. -/
theorem rho_epsilon_branch (S K r q sigma T : ℝ) (is_call is_future : Bool)
    (hsigma : 0 < sigma) (hT : 0 < T) :
    ∃ o, construct S K r q sigma T is_call is_future = .ok o ∧
      (let flag : ℝ := if is_call then 1 else -1
       let futureFlag : ℝ := if is_future then 0 else 1
       let mu := futureFlag * (r - q)
       let df := Real.exp (-r * T)
       let F := S * Real.exp (mu * T)
       let d1 := (Real.log (F / K) + T * sigma ^ 2 / 2) / (sigma * Real.sqrt T)
       let d2 := d1 - sigma * Real.sqrt T
       (is_future = true → o.rho = -T * df * o.price ∧ o.epsilon = 0) ∧
       (is_future = false →
          o.rho = flag * K * T * NormalDistribution.default.cdf (flag * d2) * df ∧
          o.epsilon = -flag * F * T * NormalDistribution.default.cdf (flag * d1) * df)) := by
  refine ⟨_, construct_ok S K r q sigma T is_call is_future hsigma hT, ?_⟩
  have h2 : T * 0.5 * sigma * sigma = T * sigma ^ 2 / 2 := by ring
  have h0 : (0.0 : ℝ) = 0 := by norm_num
  cases is_call <;> cases is_future <;>
    simp [rho, epsilon, price, initialised, set_call_put_flag, set_future_flag, h2, h0]

theorem rho_epsilon_branch_witness :
    ∃ o, construct 100 100 0.01 0 0.2 1 false true = .ok o ∧
      (let flag : ℝ := if false then 1 else -1
       let futureFlag : ℝ := if true then 0 else 1
       let mu := futureFlag * (0.01 - 0)
       let df := Real.exp (-0.01 * 1)
       let F := 100 * Real.exp (mu * 1)
       let d1 := (Real.log (F / 100) + 1 * 0.2 ^ 2 / 2) / (0.2 * Real.sqrt 1)
       let d2 := d1 - 0.2 * Real.sqrt 1
       (true = true → o.rho = -1 * df * o.price ∧ o.epsilon = 0) ∧
       (true = false →
          o.rho = flag * 100 * 1 * NormalDistribution.default.cdf (flag * d2) * df ∧
          o.epsilon = -flag * F * 1 * NormalDistribution.default.cdf (flag * d1) * df)) :=
  rho_epsilon_branch 100 100 0.01 0 0.2 1 false true (by norm_num) (by norm_num)

/-- C7: for valid inputs (`0 < sigma`, `0 < T`) the call and the put built
from the same `(S, K, r, q, sigma, T, isFuture)` return the same `gamma()`
and the same `vega()`. -/
theorem gamma_vega_call_eq_put (S K r q sigma T : ℝ) (is_future : Bool)
    (hsigma : 0 < sigma) (hT : 0 < T) :
    ∃ call put, construct S K r q sigma T true is_future = .ok call ∧
      construct S K r q sigma T false is_future = .ok put ∧
      call.gamma = put.gamma ∧ call.vega = put.vega := by
  exact ⟨_, _, construct_ok S K r q sigma T true is_future hsigma hT,
    construct_ok S K r q sigma T false is_future hsigma hT, rfl, rfl⟩

theorem gamma_vega_call_eq_put_witness :
    ∃ call put, construct 100 100 0.01 0 0.2 1 true false = .ok call ∧
      construct 100 100 0.01 0 0.2 1 false false = .ok put ∧
      call.gamma = put.gamma ∧ call.vega = put.vega :=
  gamma_vega_call_eq_put 100 100 0.01 0 0.2 1 false (by norm_num) (by norm_num)

end BlackScholesClosedForm

namespace NormalDistribution

/-- C8: construction from explicit `(mu, sigma)` throws if and only if
`sigma ≤ 0`, whatever `mu` is, and otherwise returns the distribution with
these parameters; the default construction cannot throw and yields `mu = 0`,
`sigma = 1`. -/
theorem construct_throws_iff (mu sigma : ℝ) :
    ((∃ e, construct mu sigma = .error e) ↔ sigma ≤ 0) ∧
    (sigma ≤ 0 → construct mu sigma = .error .NormalDistributionNonPositiveSigma) ∧
    (0 < sigma → construct mu sigma = .ok { mu_ := mu, sigma_ := sigma }) ∧
    default.mu_ = 0 ∧ default.sigma_ = 1 := by
  have hmu : default.mu_ = 0 := by norm_num [default]
  have hsig : default.sigma_ = 1 := by norm_num [default]
  by_cases h : sigma ≤ 0
  · simp [construct, h, hmu, hsig, not_lt.mpr h]
  · simp [construct, h, hmu, hsig, not_le.mp h]

/-- At `x = mu_` both branches of the final conditional of `cdf` give a
half. -/
theorem cdf_mean_eq_half (mu sigma : ℝ) :
    ({ mu_ := mu, sigma_ := sigma } : NormalDistribution).cdf mu = 0.5 := by
  simp only [cdf, sub_self, zero_div, abs_zero, cdfC_zero]
  split <;> norm_num

/-- C9: for every `NormalDistribution(mu, sigma)` with `0 < sigma`,
`cdf(mu) = 0.5` exactly. -/
theorem cdf_at_mean (mu sigma : ℝ) (hsigma : 0 < sigma) :
    ∃ d, construct mu sigma = .ok d ∧ d.cdf mu = 0.5 := by
  refine ⟨{ mu_ := mu, sigma_ := sigma }, ?_, cdf_mean_eq_half mu sigma⟩
  simp [construct, not_le.mpr hsigma]

theorem cdf_at_mean_witness :
    ∃ d, construct 3 2 = .ok d ∧ d.cdf 3 = 0.5 :=
  cdf_at_mean 3 2 (by norm_num)

theorem cdfC_of_lt_split (z : ℝ) (h : z < SPLIT) :
    cdfC z = Real.exp (-z * z / 2) * cdfNum z / cdfDen z := by
  have h37 : z ≤ 37.0 := by
    have : SPLIT ≤ 37.0 := by norm_num [SPLIT]
    linarith
  have h2 : (2.0 : ℝ) = 2 := by norm_num
  simp only [cdfC, if_pos h37, if_pos h, h2]

theorem exp_taylor4 (x : ℝ) (hx : |x| ≤ 1) :
    |Real.exp x - (1 + x + x ^ 2 / 2 + x ^ 3 / 6)| ≤ |x| ^ 4 * (5 / 96) := by
  have h := Real.exp_bound hx (n := 4) (by norm_num)
  simp only [Finset.sum_range_succ, Finset.sum_range_zero, Nat.factorial] at h
  norm_num at h
  convert h using 2

end NormalDistribution

namespace BlackScholesClosedForm

theorem scenario_d1 : (initialised 100 100 0.01 0 0.2 1 true false).d1 = 0.15 := by
  have hlog : Real.log (100 * Real.exp 0.01 / 100) = 0.01 := by
    rw [mul_div_cancel_left₀ _ (by norm_num : (100 : ℝ) ≠ 0)]
    exact Real.log_exp _
  have hmu : ((set_future_flag false : ℤ) : ℝ) * (0.01 - 0) * 1 = 0.01 := by
    norm_num [set_future_flag]
  simp only [initialised, hmu, hlog, Real.sqrt_one]
  norm_num

theorem scenario_d2 : (initialised 100 100 0.01 0 0.2 1 true false).d2 = -0.05 := by
  have h := scenario_d1
  simp only [initialised] at h ⊢
  rw [h, Real.sqrt_one]
  norm_num

theorem scenario_Nd1 : (initialised 100 100 0.01 0 0.2 1 true false).Nd1
    = 1 - Real.exp (-0.01125) * NormalDistribution.cdfNum 0.15 / NormalDistribution.cdfDen 0.15 := by
  have h := scenario_d1
  have hflag : ((set_call_put_flag true : ℤ) : ℝ) * 0.15 = 0.15 := by
    norm_num [set_call_put_flag]
  have hpos : ¬ ((0.15 : ℝ) ≤ 0) := by norm_num
  have habs : |(0.15 : ℝ)| = 0.15 := abs_of_pos (by norm_num)
  have hsplit : (0.15 : ℝ) < NormalDistribution.SPLIT := by norm_num [NormalDistribution.SPLIT]
  have hexp : (-0.15 * 0.15 / 2 : ℝ) = -0.01125 := by norm_num
  simp only [initialised] at h ⊢
  rw [h, hflag, NormalDistribution.default_cdf_eq, if_neg hpos, habs,
    NormalDistribution.cdfC_of_lt_split _ hsplit, hexp]

theorem scenario_Nd2 : (initialised 100 100 0.01 0 0.2 1 true false).Nd2
    = Real.exp (-0.00125) * NormalDistribution.cdfNum 0.05 / NormalDistribution.cdfDen 0.05 := by
  have h := scenario_d2
  have hflag : ((set_call_put_flag true : ℤ) : ℝ) * -0.05 = -0.05 := by
    norm_num [set_call_put_flag]
  have hneg : ((-0.05 : ℝ) ≤ 0) := by norm_num
  have habs : |(-0.05 : ℝ)| = 0.05 := by
    rw [abs_neg]
    exact abs_of_pos (by norm_num)
  have hsplit : (0.05 : ℝ) < NormalDistribution.SPLIT := by norm_num [NormalDistribution.SPLIT]
  have hexp : (-0.05 * 0.05 / 2 : ℝ) = -0.00125 := by norm_num
  simp only [initialised] at h ⊢
  rw [h, hflag, NormalDistribution.default_cdf_eq, if_pos hneg, habs,
    NormalDistribution.cdfC_of_lt_split _ hsplit, hexp]

theorem scenario_price : (initialised 100 100 0.01 0 0.2 1 true false).price
    = 100 - 100 * Real.exp (-0.01125)
        * (NormalDistribution.cdfNum 0.15 / NormalDistribution.cdfDen 0.15
          + NormalDistribution.cdfNum 0.05 / NormalDistribution.cdfDen 0.05) := by
  have h1 := scenario_Nd1
  have h2 := scenario_Nd2
  have hmu : ((set_future_flag false : ℤ) : ℝ) * (0.01 - 0) * 1 = 0.01 := by
    norm_num [set_future_flag]
  have hflag : ((set_call_put_flag true : ℤ) : ℝ) = 1 := by
    norm_num [set_call_put_flag]
  have hdfF : Real.exp (-0.01 * 1) * Real.exp 0.01 = 1 := by
    rw [← Real.exp_add]
    norm_num
  have hdfE : Real.exp (-0.01 * 1) * Real.exp (-0.00125) = Real.exp (-0.01125) := by
    rw [← Real.exp_add]
    norm_num
  simp only [price]
  rw [h1, h2]
  simp only [initialised, hmu, hflag]
  linear_combination
    (100 * (1 - Real.exp (-0.01125) * NormalDistribution.cdfNum 0.15
        / NormalDistribution.cdfDen 0.15)) * hdfF
    - (100 * NormalDistribution.cdfNum 0.05 / NormalDistribution.cdfDen 0.05) * hdfE

theorem scenario_exp_bounds :
    0.98881304 < Real.exp (-0.01125) ∧ Real.exp (-0.01125) < 0.98881305 := by
  have h := abs_le.mp (NormalDistribution.exp_taylor4 (-0.01125) (by norm_num [abs_le]))
  have habs : |(-0.01125 : ℝ)| = 0.01125 := by
    rw [abs_neg]
    exact abs_of_pos (by norm_num)
  rw [habs] at h
  obtain ⟨hlo, hhi⟩ := h
  constructor
  · norm_num at hlo ⊢
    linarith
  · norm_num at hhi ⊢
    linarith

/-- C4: for `S=100, K=100, r=0.01, q=0, sigma=0.2, T=1`, call on a spot
underlying, construction succeeds and `|price() - 8.433| < 0.0005`. -/
theorem scenario_price_value :
    ∃ o, construct 100 100 0.01 0 0.2 1 true false = .ok o ∧
      |o.price - 8.433| < 0.0005 := by
  refine ⟨_, construct_ok 100 100 0.01 0 0.2 1 true false (by norm_num) (by norm_num), ?_⟩
  obtain ⟨hlo, hhi⟩ := scenario_exp_bounds
  rw [scenario_price, abs_lt]
  constructor
  · norm_num [NormalDistribution.cdfNum, NormalDistribution.cdfDen,
      NormalDistribution.N0, NormalDistribution.N1, NormalDistribution.N2,
      NormalDistribution.N3, NormalDistribution.N4, NormalDistribution.N5,
      NormalDistribution.N6, NormalDistribution.M0, NormalDistribution.M1,
      NormalDistribution.M2, NormalDistribution.M3, NormalDistribution.M4,
      NormalDistribution.M5, NormalDistribution.M6, NormalDistribution.M7] at hlo hhi ⊢
    linarith
  · norm_num [NormalDistribution.cdfNum, NormalDistribution.cdfDen,
      NormalDistribution.N0, NormalDistribution.N1, NormalDistribution.N2,
      NormalDistribution.N3, NormalDistribution.N4, NormalDistribution.N5,
      NormalDistribution.N6, NormalDistribution.M0, NormalDistribution.M1,
      NormalDistribution.M2, NormalDistribution.M3, NormalDistribution.M4,
      NormalDistribution.M5, NormalDistribution.M6, NormalDistribution.M7] at hlo hhi ⊢
    linarith

theorem scenario_delta : (initialised 100 100 0.01 0 0.2 1 true false).delta
    = 1 - Real.exp (-0.01125) * NormalDistribution.cdfNum 0.15 / NormalDistribution.cdfDen 0.15 := by
  have h1 := scenario_Nd1
  have hmu : ((set_future_flag false : ℤ) : ℝ) * (0.01 - 0) * 1 = 0.01 := by
    norm_num [set_future_flag]
  have hflag : ((set_call_put_flag true : ℤ) : ℝ) = 1 := by
    norm_num [set_call_put_flag]
  have hdfF : Real.exp (-0.01 * 1) * Real.exp 0.01 = 1 := by
    rw [← Real.exp_add]
    norm_num
  simp only [delta]
  rw [h1]
  simp only [initialised, hmu, hflag]
  rw [mul_one, hdfF, one_mul]

/-- C5 as stated fails: for `S=100, K=100, r=0.01, q=0, sigma=0.2, T=1`, call
on a spot underlying, `delta()` is at least `0.00005` away from `0.5692`. -/
theorem scenario_delta_not_5692 :
    ∃ o, construct 100 100 0.01 0 0.2 1 true false = .ok o ∧
      ¬ (|o.delta - 0.5692| < 0.00005) := by
  refine ⟨_, construct_ok 100 100 0.01 0 0.2 1 true false (by norm_num) (by norm_num), ?_⟩
  obtain ⟨hlo, hhi⟩ := scenario_exp_bounds
  rw [scenario_delta, abs_lt, not_and_or]
  left
  norm_num [NormalDistribution.cdfNum, NormalDistribution.cdfDen,
    NormalDistribution.N0, NormalDistribution.N1, NormalDistribution.N2,
    NormalDistribution.N3, NormalDistribution.N4, NormalDistribution.N5,
    NormalDistribution.N6, NormalDistribution.M0, NormalDistribution.M1,
    NormalDistribution.M2, NormalDistribution.M3, NormalDistribution.M4,
    NormalDistribution.M5, NormalDistribution.M6, NormalDistribution.M7] at hlo hhi ⊢
  linarith

/-- C5, amended: for `S=100, K=100, r=0.01, q=0, sigma=0.2, T=1`, call on a
spot underlying, `delta() = df*flag*exp(mu*T)*N(flag*d1)` and it equals
`0.5596` to four decimals: `|delta() - 0.5596| < 0.00005`. -/
theorem scenario_delta_value :
    ∃ o, construct 100 100 0.01 0 0.2 1 true false = .ok o ∧
      |o.delta - 0.5596| < 0.00005 ∧
      o.delta =
        (let flag : ℝ := 1
         let mu : ℝ := 1 * (0.01 - 0)
         let df := Real.exp (-0.01 * 1)
         let F := 100 * Real.exp (mu * 1)
         let d1 := (Real.log (F / 100) + 1 * 0.2 ^ 2 / 2) / (0.2 * Real.sqrt 1)
         df * flag * Real.exp (mu * 1) * NormalDistribution.default.cdf (flag * d1)) := by
  refine ⟨_, construct_ok 100 100 0.01 0 0.2 1 true false (by norm_num) (by norm_num), ?_, ?_⟩
  · obtain ⟨hlo, hhi⟩ := scenario_exp_bounds
    rw [scenario_delta, abs_lt]
    constructor
    · norm_num [NormalDistribution.cdfNum, NormalDistribution.cdfDen,
        NormalDistribution.N0, NormalDistribution.N1, NormalDistribution.N2,
        NormalDistribution.N3, NormalDistribution.N4, NormalDistribution.N5,
        NormalDistribution.N6, NormalDistribution.M0, NormalDistribution.M1,
        NormalDistribution.M2, NormalDistribution.M3, NormalDistribution.M4,
        NormalDistribution.M5, NormalDistribution.M6, NormalDistribution.M7] at hlo hhi ⊢
      linarith
    · norm_num [NormalDistribution.cdfNum, NormalDistribution.cdfDen,
        NormalDistribution.N0, NormalDistribution.N1, NormalDistribution.N2,
        NormalDistribution.N3, NormalDistribution.N4, NormalDistribution.N5,
        NormalDistribution.N6, NormalDistribution.M0, NormalDistribution.M1,
        NormalDistribution.M2, NormalDistribution.M3, NormalDistribution.M4,
        NormalDistribution.M5, NormalDistribution.M6, NormalDistribution.M7] at hlo hhi ⊢
      linarith
  · have h2 : (0.5 : ℝ) * 0.2 * 0.2 = 0.2 ^ 2 / 2 := by norm_num
    simp [delta, initialised, set_call_put_flag, set_future_flag, h2]

end BlackScholesClosedForm

namespace NormalDistribution

/-- C10 at a failing input: for `NormalDistribution(1, 1)` the arguments
`x = 0.5 ≤ y = 1` give `cdf(y) = 0.5 < cdf(x)`, because the final conditional
of `cdf` tests the sign of `x` instead of the sign of `(x - mu)/sigma`. -/
theorem cdf_shifted_mean_decreases :
    ∃ d, construct 1 1 = .ok d ∧ (0.5 : ℝ) ≤ 1 ∧ d.cdf 1 = 0.5 ∧ d.cdf 1 < d.cdf 0.5 := by
  have hcdf := cdf_mean_eq_half 1 1
  refine ⟨{ mu_ := 1, sigma_ := 1 }, by simp [construct], by norm_num, hcdf, ?_⟩
  rw [hcdf]
  have hx : ¬ ((0.5 : ℝ) ≤ 0.0) := by norm_num
  have hz : |((0.5 : ℝ) - 1) / 1| = 0.5 := by
    rw [show ((0.5 : ℝ) - 1) / 1 = -0.5 by norm_num, abs_neg]
    exact abs_of_pos (by norm_num)
  have hsplit : (0.5 : ℝ) < SPLIT := by norm_num [SPLIT]
  simp only [cdf, if_neg hx, hz, cdfC_of_lt_split _ hsplit]
  have he : Real.exp (-0.5 * 0.5 / 2) ≤ 1 := by
    apply Real.exp_le_one_iff.mpr
    norm_num
  have he0 : 0 < Real.exp (-0.5 * 0.5 / 2) := Real.exp_pos _
  have hn : 0 < cdfNum 0.5 := by
    norm_num [cdfNum, N0, N1, N2, N3, N4, N5, N6]
  have hdn : 2 * cdfNum 0.5 < cdfDen 0.5 := by
    norm_num [cdfNum, cdfDen, N0, N1, N2, N3, N4, N5, N6, M0, M1, M2, M3, M4, M5, M6, M7]
  have hdpos : 0 < cdfDen 0.5 := by linarith
  have hc : Real.exp (-0.5 * 0.5 / 2) * cdfNum 0.5 / cdfDen 0.5 < 1 / 2 := by
    rw [div_lt_iff₀ hdpos]
    nlinarith
  norm_num at hc ⊢
  linarith

end NormalDistribution

namespace NormalDistribution

theorem cdfNum_nonneg (z : ℝ) (hz : 0 ≤ z) : 0 ≤ cdfNum z := by
  simp only [cdfNum, N0, N1, N2, N3, N4, N5, N6]
  norm_num
  positivity

theorem cdfNum_le_cdfDen (z : ℝ) (hz : 0 ≤ z) : cdfNum z ≤ cdfDen z := by
  have h : cdfDen z - cdfNum z
      = M7 * z ^ 7 + (M6 - N6) * z ^ 6 + (M5 - N5) * z ^ 5 + (M4 - N4) * z ^ 4
        + (M3 - N3) * z ^ 3 + (M2 - N2) * z ^ 2 + (M1 - N1) * z + (M0 - N0) := by
    simp only [cdfNum, cdfDen]
    ring
  have h0 : 0 ≤ cdfDen z - cdfNum z := by
    rw [h]
    simp only [N0, N1, N2, N3, N4, N5, N6, M0, M1, M2, M3, M4, M5, M6, M7]
    norm_num
    positivity
  linarith

theorem cdfDen_pos (z : ℝ) (hz : 0 ≤ z) : 0 < cdfDen z := by
  simp only [cdfDen, M0, M1, M2, M3, M4, M5, M6, M7]
  norm_num
  positivity

theorem cdfTail_ge (z : ℝ) (hz : 0 < z) : z ≤ cdfTail z := by
  have h : 0 ≤ 1.0 / (z + 2.0 / (z + 3.0 / (z + 4.0 / (z + 13.0 / 20.0)))) := by
    norm_num
    positivity
  simp only [cdfTail]
  linarith

theorem one_le_RT2PI : 1 ≤ RT2PI := by
  have h : (1 : ℝ) ≤ 4.0 * Real.arccos 0.0 := by
    have h0 : (0.0 : ℝ) = 0 := by norm_num
    rw [h0, Real.arccos_zero]
    have := Real.pi_gt_three
    norm_num
    linarith
  simp only [RT2PI]
  rw [Real.one_le_sqrt]
  exact h

/-- In every branch the local `c` of `cdf` lies in `[0, 1]`. -/
theorem cdfC_mem (z : ℝ) (hz : 0 ≤ z) : 0 ≤ cdfC z ∧ cdfC z ≤ 1 := by
  have he0 : 0 < Real.exp (-z * z / 2.0) := Real.exp_pos _
  have he1 : Real.exp (-z * z / 2.0) ≤ 1 := by
    apply Real.exp_le_one_iff.mpr
    have : 0 ≤ z * z := mul_nonneg hz hz
    norm_num
    linarith
  unfold cdfC
  split
  · split
    · have hn := cdfNum_nonneg z hz
      have hnd := cdfNum_le_cdfDen z hz
      have hd := cdfDen_pos z hz
      constructor
      · positivity
      · rw [div_le_one hd]
        calc Real.exp (-z * z / 2.0) * cdfNum z ≤ 1 * cdfNum z :=
              mul_le_mul_of_nonneg_right he1 hn
          _ ≤ cdfDen z := by linarith
    · rename_i hsplit
      have hzs : SPLIT ≤ z := not_lt.mp hsplit
      have hz1 : 1 ≤ z := by
        have : (1 : ℝ) ≤ SPLIT := by norm_num [SPLIT]
        linarith
      have hf : 1 ≤ cdfTail z := le_trans hz1 (cdfTail_ge z (by linarith))
      have hr := one_le_RT2PI
      have hprod : 1 ≤ RT2PI * cdfTail z := by nlinarith
      constructor
      · positivity
      · rw [div_le_one (by linarith)]
        linarith
  · norm_num

/-- C11: for every `NormalDistribution(mu, sigma)` with `0 < sigma` and every
real `x`, `0 ≤ cdf(x) ≤ 1`. -/
theorem cdf_mem_unit_interval (mu sigma x : ℝ) (hsigma : 0 < sigma) :
    ∃ d, construct mu sigma = .ok d ∧ 0 ≤ d.cdf x ∧ d.cdf x ≤ 1 := by
  refine ⟨{ mu_ := mu, sigma_ := sigma }, by simp [construct, not_le.mpr hsigma], ?_⟩
  obtain ⟨h0, h1⟩ := cdfC_mem |(x - mu) / sigma| (abs_nonneg _)
  simp only [cdf]
  split
  · exact ⟨h0, h1⟩
  · constructor <;> linarith

theorem cdf_mem_unit_interval_witness :
    ∃ d, construct 3 2 = .ok d ∧ 0 ≤ d.cdf 50 ∧ d.cdf 50 ≤ 1 :=
  cdf_mem_unit_interval 3 2 50 (by norm_num)

theorem cdfC_half_lt : cdfC 0.5 < 1 / 2 := by
  have hsplit : (0.5 : ℝ) < SPLIT := by norm_num [SPLIT]
  rw [cdfC_of_lt_split _ hsplit]
  have he : Real.exp (-0.5 * 0.5 / 2) ≤ 1 := by
    apply Real.exp_le_one_iff.mpr
    norm_num
  have he0 : 0 < Real.exp (-0.5 * 0.5 / 2) := Real.exp_pos _
  have hn : 0 < cdfNum 0.5 := by
    norm_num [cdfNum, N0, N1, N2, N3, N4, N5, N6]
  have hdn : 2 * cdfNum 0.5 < cdfDen 0.5 := by
    norm_num [cdfNum, cdfDen, N0, N1, N2, N3, N4, N5, N6, M0, M1, M2, M3, M4, M5, M6, M7]
  have hdpos : 0 < cdfDen 0.5 := by linarith
  rw [div_lt_iff₀ hdpos]
  nlinarith

/-- C12 at a failing input: for `NormalDistribution(1, 1)` and `x = 0.5` the
reflected argument is `2*mu - x = 1.5`; both arguments are positive, so `cdf`
returns `1 - c` with the same `c` for both and `cdf(1.5) ≠ 1 - cdf(0.5)`. -/
theorem cdf_shifted_mean_not_symmetric :
    ∃ d, construct 1 1 = .ok d ∧ d.cdf (2 * 1 - 0.5) = d.cdf 0.5 ∧
      d.cdf (2 * 1 - 0.5) ≠ 1 - d.cdf 0.5 := by
  refine ⟨{ mu_ := 1, sigma_ := 1 }, by simp [construct], ?_⟩
  have hx : ¬ ((0.5 : ℝ) ≤ 0.0) := by norm_num
  have hy : ¬ ((2 * 1 - 0.5 : ℝ) ≤ 0.0) := by norm_num
  have hz : |((0.5 : ℝ) - 1) / 1| = 0.5 := by
    rw [show ((0.5 : ℝ) - 1) / 1 = -0.5 by norm_num, abs_neg]
    exact abs_of_pos (by norm_num)
  have hz2 : |((2 * 1 - 0.5 : ℝ) - 1) / 1| = 0.5 := by
    rw [show ((2 * 1 - 0.5 : ℝ) - 1) / 1 = 0.5 by norm_num]
    exact abs_of_pos (by norm_num)
  have hc := cdfC_half_lt
  simp only [cdf, if_neg hx, if_neg hy, hz, hz2]
  refine ⟨trivial, ?_⟩
  intro h
  linarith

end NormalDistribution

/-! ### The `abs` of `svi.cpp` -/

theorem to_int_of_nonneg (x : ℝ) (h0 : 0 ≤ x) (h1 : x < 2 ^ 31) : to_int x = ⌊x⌋ := by
  have hf0 : 0 ≤ ⌊x⌋ := Int.floor_nonneg.mpr h0
  have hf1 : ⌊x⌋ < 2 ^ 31 := by
    rw [Int.floor_lt]
    exact_mod_cast h1
  simp only [to_int, if_pos h0]
  rw [if_pos ⟨by omega, hf1⟩]

theorem to_int_of_neg (x : ℝ) (h0 : x < 0) (h1 : -2 ^ 31 ≤ x) : to_int x = ⌈x⌉ := by
  have hc0 : ⌈x⌉ ≤ 0 := by
    rw [Int.ceil_le]
    exact_mod_cast h0.le
  have hc1 : -2 ^ 31 ≤ ⌈x⌉ := by
    rw [Int.le_ceil_iff]
    push_cast
    linarith
  simp only [to_int, if_neg (not_le.mpr h0)]
  rw [if_pos ⟨hc1, by omega⟩]

theorem to_int_of_large (x : ℝ) (h : 2 ^ 31 ≤ x) : to_int x = -2 ^ 31 := by
  have h0 : (0 : ℝ) ≤ x := le_trans (by positivity) h
  have hf : (2 : ℤ) ^ 31 ≤ ⌊x⌋ := by
    rw [Int.le_floor]
    exact_mod_cast h
  simp only [to_int, if_pos h0]
  rw [if_neg]
  omega

theorem to_int_of_small (x : ℝ) (h : x ≤ -2 ^ 31) : to_int x = -2 ^ 31 := by
  have h0 : ¬ (0 : ℝ) ≤ x := by
    have : (0 : ℝ) < 2 ^ 31 := by positivity
    linarith
  have hc : ⌈x⌉ ≤ -2 ^ 31 := by
    rw [Int.ceil_le]
    exact_mod_cast h
  simp only [to_int, if_neg h0]
  split_ifs with h2
  · omega
  · rfl

/-- The test `abs(x) > 1` of `svi.cpp` holds exactly for `2 ≤ |x| < 2^31`. -/
theorem c_abs_gt_one_iff (x : ℝ) :
    1 < c_abs x ↔ (x ≤ -2 ∨ 2 ≤ x) ∧ -2 ^ 31 < x ∧ x < 2 ^ 31 := by
  rcases le_or_lt (2 ^ 31 : ℝ) x with hbig | hbig
  · have h := to_int_of_large x hbig
    simp only [c_abs, h, if_true]
    constructor
    · intro h1
      omega
    · rintro ⟨-, -, h3⟩
      linarith
  rcases le_or_lt x (-2 ^ 31 : ℝ) with hsm | hsm
  · have h := to_int_of_small x hsm
    simp only [c_abs, h, if_true]
    constructor
    · intro h1
      omega
    · rintro ⟨-, h2, -⟩
      linarith
  rcases le_or_lt 0 x with h0 | h0
  · have h := to_int_of_nonneg x h0 hbig
    have hf0 : 0 ≤ ⌊x⌋ := Int.floor_nonneg.mpr h0
    have hne : ⌊x⌋ ≠ -2 ^ 31 := by omega
    simp only [c_abs, h, if_neg hne, abs_of_nonneg hf0]
    have h2 : (2 : ℤ) ≤ ⌊x⌋ ↔ (2 : ℝ) ≤ x := by
      rw [Int.le_floor]
      norm_num
    constructor
    · intro h1
      exact ⟨Or.inr (h2.mp (by omega)), hsm, hbig⟩
    · rintro ⟨h1 | h1, -, -⟩
      · linarith
      · have := h2.mpr h1
        omega
  · have h := to_int_of_neg x h0 hsm.le
    have hc0 : ⌈x⌉ ≤ 0 := by
      rw [Int.ceil_le]
      exact_mod_cast h0.le
    have hc1 : -2 ^ 31 < ⌈x⌉ := by
      rw [Int.lt_ceil]
      exact_mod_cast hsm
    have hne : ⌈x⌉ ≠ -2 ^ 31 := by omega
    simp only [c_abs, h, if_neg hne, abs_of_nonpos hc0]
    have h2 : ⌈x⌉ ≤ (-2 : ℤ) ↔ x ≤ (-2 : ℝ) := by
      rw [Int.ceil_le]
      norm_num
    constructor
    · intro h1
      exact ⟨Or.inl (h2.mp (by omega)), hsm, hbig⟩
    · rintro ⟨h1 | h1, -, -⟩
      · have := h2.mpr h1
        omega
      · linarith

theorem c_abs_gt_one_real (x : ℝ) :
    (1 : ℝ) < ((c_abs x : ℤ) : ℝ) ↔ (x ≤ -2 ∨ 2 ≤ x) ∧ -2 ^ 31 < x ∧ x < 2 ^ 31 := by
  rw [← c_abs_gt_one_iff]
  exact_mod_cast Iff.rfl

theorem c_abs_of_nonneg (x : ℝ) (h0 : 0 ≤ x) (h1 : x < 2 ^ 31) : c_abs x = ⌊x⌋ := by
  have h := to_int_of_nonneg x h0 h1
  have hf0 : 0 ≤ ⌊x⌋ := Int.floor_nonneg.mpr h0
  have hne : ⌊x⌋ ≠ -2 ^ 31 := by omega
  simp only [c_abs, h, if_neg hne, abs_of_nonneg hf0]

theorem c_abs_of_neg (x : ℝ) (h0 : x < 0) (h1 : -2 ^ 31 < x) : c_abs x = -⌈x⌉ := by
  have h := to_int_of_neg x h0 h1.le
  have hc0 : ⌈x⌉ ≤ 0 := by
    rw [Int.ceil_le]
    exact_mod_cast h0.le
  have hc1 : -2 ^ 31 < ⌈x⌉ := by
    rw [Int.lt_ceil]
    exact_mod_cast h1
  have hne : ⌈x⌉ ≠ -2 ^ 31 := by omega
  simp only [c_abs, h, if_neg hne, abs_of_nonpos hc0]

theorem c_abs_of_out (x : ℝ) (h : x ≤ -2 ^ 31 ∨ 2 ^ 31 ≤ x) : c_abs x = -2 ^ 31 := by
  rcases h with h | h
  · simp only [c_abs, to_int_of_small x h, if_true]
  · simp only [c_abs, to_int_of_large x h, if_true]

theorem c_abs_intCast (n : ℤ) (h0 : -2 ^ 31 < n) (h1 : n < 2 ^ 31) : c_abs (n : ℝ) = |n| := by
  rcases le_or_lt 0 n with hn | hn
  · rw [c_abs_of_nonneg (n : ℝ) (by exact_mod_cast hn) (by exact_mod_cast h1),
      Int.floor_intCast, abs_of_nonneg hn]
  · rw [c_abs_of_neg (n : ℝ) (by exact_mod_cast hn) (by exact_mod_cast h0),
      Int.ceil_intCast, abs_of_neg hn]

theorem c_abs_one : c_abs 1 = 1 := by
  have h := c_abs_intCast 1 (by norm_num) (by norm_num)
  simpa using h

theorem wrap_int_of_mem (n : ℤ) (h0 : -2 ^ 31 ≤ n) (h1 : n < 2 ^ 31) : wrap_int n = n := by
  unfold wrap_int
  omega

/-- The factor `1 + abs(rho_)` of the code is at most `1 + |rho_|`. -/
theorem one_add_c_abs_le (x : ℝ) : ((wrap_int (1 + c_abs x) : ℤ) : ℝ) ≤ 1 + |x| := by
  have habs : 0 ≤ |x| := abs_nonneg x
  rcases le_or_lt (2 ^ 31 : ℝ) x with hbig | hbig
  · rw [c_abs_of_out x (Or.inr hbig), wrap_int_of_mem _ (by norm_num) (by norm_num)]
    push_cast
    linarith
  rcases le_or_lt x (-2 ^ 31 : ℝ) with hsm | hsm
  · rw [c_abs_of_out x (Or.inl hsm), wrap_int_of_mem _ (by norm_num) (by norm_num)]
    push_cast
    linarith
  rcases le_or_lt 0 x with h0 | h0
  · rw [c_abs_of_nonneg x h0 hbig, abs_of_nonneg h0]
    have hf0 : 0 ≤ ⌊x⌋ := Int.floor_nonneg.mpr h0
    have hf1 : ⌊x⌋ < 2 ^ 31 := by
      rw [Int.floor_lt]
      exact_mod_cast hbig
    have hfx : ((⌊x⌋ : ℤ) : ℝ) ≤ x := Int.floor_le x
    rcases lt_or_eq_of_le (show ⌊x⌋ ≤ 2 ^ 31 - 1 by omega) with h | h
    · rw [wrap_int_of_mem _ (by omega) (by omega)]
      push_cast
      linarith
    · have hw : wrap_int (1 + ⌊x⌋) = -2 ^ 31 := by
        unfold wrap_int
        omega
      rw [hw]
      push_cast
      linarith
  · rw [c_abs_of_neg x h0 hsm, abs_of_neg h0]
    have hc0 : ⌈x⌉ ≤ 0 := by
      rw [Int.ceil_le]
      exact_mod_cast h0.le
    have hc1 : -2 ^ 31 < ⌈x⌉ := by
      rw [Int.lt_ceil]
      exact_mod_cast hsm
    have hcx : x ≤ ((⌈x⌉ : ℤ) : ℝ) := Int.le_ceil x
    rcases lt_or_eq_of_le (show -⌈x⌉ ≤ 2 ^ 31 - 1 by omega) with h | h
    · rw [wrap_int_of_mem _ (by omega) (by omega)]
      push_cast
      linarith
    · have hw : wrap_int (1 + -⌈x⌉) = -2 ^ 31 := by
        unfold wrap_int
        omega
      rw [hw]
      push_cast
      linarith

namespace SVI

theorem bodyChecks_ok (self o : SVI) (h : bodyChecks self = .ok o) :
    o = self ∧ 0 < self.vt_ ∧ 0 < self.vmt_ ∧ 0 < self.T_ ∧ 0 < self.s ∧
      (0 ≤ 1 - self.p * self.p →
        0 ≤ self.a + self.b * self.s * Real.sqrt (1 - self.p * self.p)) := by
  unfold bodyChecks at h
  split_ifs at h with h1 h2 h3 h4 h5
  injection h with h
  exact ⟨h.symm, not_le.mp h1, not_le.mp h2, not_le.mp h3, not_le.mp h4,
    fun hp => not_lt.mp (fun hlt => h5 ⟨hp, hlt⟩)⟩

theorem get_b_ok (self : SVI) (v : ℝ) (h : get_b self = .ok v) :
    v = Real.sqrt (self.vt_ * self.T_) * (self.ct_ + self.pt_) / 2 ∧ 0 ≤ v := by
  unfold get_b at h
  simp only at h
  split_ifs at h with h1
  injection h with h
  exact ⟨h.symm, h ▸ not_lt.mp h1⟩

theorem get_p_ok (self : SVI) (v : ℝ) (h : get_p self = .ok v) :
    v = (if self.b = 0 then 0
         else 1 - self.pt_ * Real.sqrt (self.vt_ * self.T_) / self.b) ∧
      ¬ (1 : ℝ) < ((c_abs v : ℤ) : ℝ) := by
  have h0 : (0.0 : ℝ) = 0 := by norm_num
  have h1 : (1.0 : ℝ) = 1 := by norm_num
  unfold get_p at h
  simp only [h0, h1] at h
  split_ifs at h with h2 h3 h4
  · injection h with h
    subst h
    exact ⟨(if_pos h2).symm, h3⟩
  · injection h with h
    subst h
    exact ⟨(if_neg h2).symm, h4⟩

theorem memberInit_ok (mem : SVI) (factor vt ut ct pt vmt t : ℝ) (self : SVI)
    (h : memberInit mem factor vt ut ct pt vmt t = .ok self) :
    self.vt_ = vt ∧ self.ut_ = ut ∧ self.ct_ = ct ∧ self.pt_ = pt ∧ self.vmt_ = vmt ∧
      self.T_ = t ∧ 0 ≤ self.b ∧ ¬ (1 : ℝ) < ((c_abs self.p : ℤ) : ℝ) := by
  simp only [memberInit, bind, Except.bind, pure, Except.pure] at h
  split at h
  · cases h
  · rename_i vbeta hbeta
    split at h
    · cases h
    · rename_i vb hb
      split at h
      · cases h
      · rename_i vp hp
        injection h with h
        subst h
        exact ⟨rfl, rfl, rfl, rfl, rfl, rfl, (get_b_ok _ _ hb).2, (get_p_ok _ _ hp).2⟩

/-- What every returning run of the constructor establishes, whatever the
storage held before: the jump-wings members are the arguments, the body checks
passed, and `b` and `p` passed the checks of `get_b` and `get_p`. -/
theorem svi_construct_ok (mem : SVI) (factor vt ut ct pt vmt t : ℝ) (o : SVI)
    (h : construct mem factor vt ut ct pt vmt t = .ok o) :
    (o.vt_ = vt ∧ o.ut_ = ut ∧ o.ct_ = ct ∧ o.pt_ = pt ∧ o.vmt_ = vmt ∧ o.T_ = t) ∧
      (0 < vt ∧ 0 < vmt ∧ 0 < t) ∧ 0 < o.s ∧
      (0 ≤ 1 - o.p * o.p → 0 ≤ o.a + o.b * o.s * Real.sqrt (1 - o.p * o.p)) ∧ 0 ≤ o.b ∧
      ¬ (1 : ℝ) < ((c_abs o.p : ℤ) : ℝ) := by
  unfold construct at h
  cases hm : memberInit mem factor vt ut ct pt vmt t with
  | error e =>
    rw [hm] at h
    cases h
  | ok self =>
    rw [hm] at h
    obtain ⟨ho, h1, h2, h3, h4, h5⟩ := bodyChecks_ok self o h
    obtain ⟨g1, g2, g3, g4, g5, g6, g7, g8⟩ := memberInit_ok mem factor vt ut ct pt vmt t self hm
    subst ho
    refine ⟨⟨g1, g2, g3, g4, g5, g6⟩, ⟨g1 ▸ h1, g5 ▸ h2, g6 ▸ h3⟩, h4, h5, g7, g8⟩

/-- When the storage already holds an object on which every initializer
expression reproduces the stored member, the member initialisation leaves it
as it is. -/
theorem memberInit_fixed (o : SVI) (factor : ℝ)
    (ha : get_a o = o.a) (hbeta : get_beta o = .ok o.beta) (halpha : get_alpha o = o.alpha)
    (hb : get_b o = .ok o.b) (hm : get_m o = o.m) (hs : get_s o = o.s)
    (hp : get_p o = .ok o.p) (hdmdt : get_dmdt o factor = o.dmdt)
    (hdadt : get_dadt o = o.dadt) (hdsdt : get_dsdt o = o.dsdt)
    (hdbdt : get_dbdt o = o.dbdt) :
    memberInit o factor o.vt_ o.ut_ o.ct_ o.pt_ o.vmt_ o.T_ = .ok o := by
  obtain ⟨vt, ut, ct, pt, vmt, T, a, beta, alpha, b, m, s, p, dmdt, dadt, dsdt, dbdt⟩ := o
  simp only at ha hbeta halpha hb hm hs hp hdmdt hdadt hdsdt hdbdt
  simp only [memberInit, bind, Except.bind, pure, Except.pure, ha, hbeta, halpha, hb, hm, hs,
    hp, hdmdt, hdadt, hdsdt, hdbdt]

theorem sqrt_nine : Real.sqrt 9 = 3 := by
  rw [show (9 : ℝ) = 3 ^ 2 by norm_num]
  exact Real.sqrt_sq (by norm_num)

theorem sqrt_sixteen : Real.sqrt 16 = 4 := by
  rw [show (16 : ℝ) = 4 ^ 2 by norm_num]
  exact Real.sqrt_sq (by norm_num)

theorem sqrt_twentyfive : Real.sqrt 25 = 5 := by
  rw [show (25 : ℝ) = 5 ^ 2 by norm_num]
  exact Real.sqrt_sq (by norm_num)

theorem sampleSlice_get_a : get_a sampleSlice = -2 := by
  norm_num [get_a, sampleSlice]

theorem sampleSlice_get_beta : get_beta sampleSlice = .ok (3 / 5) := by
  norm_num [c_abs_gt_one_real, get_beta, sampleSlice, abs_le]

theorem sampleSlice_get_alpha : get_alpha sampleSlice = 4 / 3 := by
  norm_num [get_alpha, sampleSlice, sqrt_sixteen, sqrt_nine]

theorem sampleSlice_get_b : get_b sampleSlice = .ok 1 := by
  norm_num [get_b, sampleSlice]

theorem sampleSlice_get_m : get_m sampleSlice = 3 := by
  norm_num [get_m, sampleSlice, sqrt_twentyfive, sqrt_nine]

theorem sampleSlice_get_s : get_s sampleSlice = 4 := by
  norm_num [get_s, sampleSlice]

theorem sampleSlice_get_p : get_p sampleSlice = .ok 0 := by
  norm_num [c_abs_gt_one_real, get_p, sampleSlice]

theorem sampleSlice_get_dmdt : get_dmdt sampleSlice (1 / 3) = -3 / 2 := by
  norm_num [get_dmdt, sampleSlice]

theorem sampleSlice_get_dadt : get_dadt sampleSlice = 2 := by
  norm_num [get_dadt, sampleSlice]

theorem sampleSlice_get_dsdt : get_dsdt sampleSlice = -2 := by
  norm_num [get_dsdt, sampleSlice]

theorem sampleSlice_get_dbdt : get_dbdt sampleSlice = 1 / 2 := by
  norm_num [get_dbdt, sampleSlice]

/-- Constructed in storage that already holds these values, `SVI(1, -3/10,
1, 1, 2, 1)` is `sampleSlice`. -/
theorem sampleSlice_construct :
    construct sampleSlice (1 / 3) 1 (-3 / 10) 1 1 2 1 = .ok sampleSlice := by
  have h : memberInit sampleSlice (1 / 3) 1 (-3 / 10) 1 1 2 1 = .ok sampleSlice :=
    memberInit_fixed sampleSlice (1 / 3) sampleSlice_get_a sampleSlice_get_beta
      sampleSlice_get_alpha sampleSlice_get_b sampleSlice_get_m sampleSlice_get_s
      sampleSlice_get_p sampleSlice_get_dmdt sampleSlice_get_dadt sampleSlice_get_dsdt
      sampleSlice_get_dbdt
  unfold construct
  rw [h]
  norm_num [Except.bind, bodyChecks, sampleSlice]

/-- Constructed in zero-filled storage, `SVI(1, -3/10, 1, 1, 2, 1)` throws:
`get_beta` reads `b = 0` and returns `1`, so `alpha = 0` and `s = alpha*m = 0`. -/
theorem zeroStorage_construct (factor : ℝ) :
    construct zeroStorage factor 1 (-3 / 10) 1 1 2 1 = .error .SVIWrongParameterValue := by
  norm_num [c_abs_gt_one_real, construct, memberInit, bodyChecks, zeroStorage, get_a, get_beta, get_alpha, get_b,
    get_m, get_s, get_p, get_dmdt, get_dadt, get_dsdt, get_dbdt, bind, Except.bind, pure,
    Except.pure]

theorem staleStorage_construct (factor : ℝ) :
    construct staleStorage factor 2 0 0 0 1 1 = .ok staleSlice := by
  norm_num [c_abs_gt_one_real, construct, memberInit, bodyChecks, staleStorage, staleSlice, get_a, get_beta,
    get_alpha, get_b, get_m, get_s, get_p, get_dmdt, get_dadt, get_dsdt, get_dbdt, bind,
    Except.bind, pure, Except.pure]

/-- C13 at a failing input. For `SVI(1, -3/10, 1, 1, 2, 1)` the derived values
`b = 1, p = 0, beta = 3/5, alpha = 4/3, m = 3, a = -2, s = 4` (each one its
own formula evaluated on the others) meet none of the listed failure
conditions, yet the constructor run in zero-filled storage throws, while the
run in storage that already holds these values returns: the outcome is not
decided by the arguments. -/
theorem svi_construct_depends_on_storage :
    (∃ o : SVI,
      (o.vt_ = 1 ∧ o.ut_ = -3 / 10 ∧ o.ct_ = 1 ∧ o.pt_ = 1 ∧ o.vmt_ = 2 ∧ o.T_ = 1) ∧
      (get_b o = .ok o.b ∧ get_p o = .ok o.p ∧ get_beta o = .ok o.beta ∧
        get_alpha o = o.alpha ∧ get_m o = o.m ∧ get_a o = o.a ∧ get_s o = o.s) ∧
      (0 < o.vt_ ∧ 0 < o.vmt_ ∧ 0 < o.T_ ∧ 0 ≤ o.b ∧ |o.p| ≤ 1 ∧ |o.beta| ≤ 1 ∧ 0 < o.s ∧
        0 ≤ o.a + o.b * o.s * Real.sqrt (1 - o.p * o.p)) ∧
      construct o (1 / 3) 1 (-3 / 10) 1 1 2 1 = .ok o) ∧
    ∀ factor : ℝ,
      construct zeroStorage factor 1 (-3 / 10) 1 1 2 1 = .error .SVIWrongParameterValue := by
  refine ⟨⟨sampleSlice, ?_, ?_, ?_, sampleSlice_construct⟩, zeroStorage_construct⟩
  · norm_num [sampleSlice]
  · refine ⟨?_, ?_, ?_, ?_, ?_, ?_, ?_⟩
    · exact sampleSlice_get_b
    · exact sampleSlice_get_p
    · exact sampleSlice_get_beta
    · exact sampleSlice_get_alpha
    · exact sampleSlice_get_m
    · exact sampleSlice_get_a
    · exact sampleSlice_get_s
  · norm_num [sampleSlice, abs_le]

theorem sampleSlice_total_variance_zero : sampleSlice.total_variance 0 = 3 := by
  norm_num [total_variance, sampleSlice, sqrt_twentyfive]

/-- C14 at a failing input: `SVI(1, -3/10, 1, 1, 2, 1)` is constructed with
`total_variance(0) = 3 = 2*T*vmt - T*vt`, not `vt*T = 1`; `implied_variance(0)`
is `3`, not `vt = 1`. -/
theorem svi_atm_variance_not_vt :
    ∃ o, construct sampleSlice (1 / 3) 1 (-3 / 10) 1 1 2 1 = .ok o ∧
      o.total_variance 0 = 3 ∧ o.total_variance 0 ≠ 1 * 1 ∧ o.implied_variance 0 ≠ 1 := by
  refine ⟨sampleSlice, sampleSlice_construct, sampleSlice_total_variance_zero, ?_, ?_⟩
  · rw [sampleSlice_total_variance_zero]
    norm_num
  · simp only [implied_variance]
    rw [sampleSlice_total_variance_zero]
    norm_num [sampleSlice]

theorem staleSlice_total_variance (k : ℝ) : staleSlice.total_variance k = 0 := by
  simp [total_variance, staleSlice]

/-- C15 at a failing input: `SVI(2, 0, 0, 0, 1, 1)`, constructed in storage
whose stale content makes `get_a` return `T*vmt - 1 = 0`, is a flat slice with
`implied_variance(k) = 0 < vmt = 1` for every `k`. In zero-filled storage
`get_a` takes its `m == 0` branch with `p = 0`, whose divisor
`1 - sqrt(1 - p*p)` is zero. -/
theorem svi_implied_variance_below_vmt :
    (∀ factor : ℝ, ∃ o, construct staleStorage factor 2 0 0 0 1 1 = .ok o ∧
      ∀ k, o.implied_variance k = 0 ∧ ¬ (1 ≤ o.implied_variance k)) ∧
    (zeroStorage.m = 0 ∧ 1 - Real.sqrt (1 - zeroStorage.p * zeroStorage.p) = 0) := by
  constructor
  · intro factor
    refine ⟨staleSlice, staleStorage_construct factor, ?_⟩
    intro k
    have h : staleSlice.implied_variance k = 0 := by
      simp only [implied_variance, staleSlice_total_variance, zero_div]
    rw [h]
    norm_num
  · norm_num [zeroStorage]

/-- The smile part `p*x + sqrt(x*x + s*s)` is at least `s*sqrt(1 - p*p)`. -/
theorem smile_lower_bound (p s x : ℝ) (hp : |p| ≤ 1) :
    s * Real.sqrt (1 - p * p) ≤ p * x + Real.sqrt (x * x + s * s) := by
  have hp2 : 0 ≤ 1 - p * p := by
    have := abs_le.mp hp
    nlinarith
  have hq0 : 0 ≤ Real.sqrt (1 - p * p) := Real.sqrt_nonneg _
  have hq2 : Real.sqrt (1 - p * p) * Real.sqrt (1 - p * p) = 1 - p * p :=
    Real.mul_self_sqrt hp2
  have hle : s * Real.sqrt (1 - p * p) - p * x ≤ Real.sqrt (x * x + s * s) := by
    apply Real.le_sqrt_of_sq_le
    nlinarith [sq_nonneg (x * Real.sqrt (1 - p * p) + s * p)]
  linarith

/-- In the storage of `sampleSlice`, `SVI(1, -3/10, 5, -1, 1, 1)` is
constructed as `wingSlice`: `get_p` computes `p = 3/2`, which the integer `abs`
truncates to `1`, and in the body `sqrt(1 - p*p)` is NaN, so the last
comparison is false. -/
theorem wingSlice_construct :
    construct sampleSlice 1 1 (-3 / 10) 5 (-1) 1 1 = .ok wingSlice := by
  norm_num [c_abs_gt_one_real, construct, memberInit, bodyChecks, sampleSlice, wingSlice,
    get_a, get_beta, get_alpha, get_b, get_m, get_s, get_p, get_dmdt, get_dadt, get_dsdt,
    get_dbdt, bind, Except.bind, pure, Except.pure, sqrt_nine, sqrt_sixteen, sqrt_twentyfive]

/-- C16 at a failing input: `SVI(1, -3/10, 5, -1, 1, 1)`, constructed in the
storage of `sampleSlice`, has `s = 2 > 0` but `p = 3/2`, so `1 - p^2 < 0` and
`a + b*s*sqrt(1 - p^2)` is not a number; `total_variance(-10)` is
`-3 + 2*(-15 + sqrt 104) < 0`, and `implied_volatility(-10)` takes the square
root of the negative `implied_variance(-10)`. -/
theorem svi_total_variance_negative :
    ∃ o, construct sampleSlice 1 1 (-3 / 10) 5 (-1) 1 1 = .ok o ∧
      0 < o.s ∧ o.p = 3 / 2 ∧ 1 - o.p * o.p < 0 ∧
      o.total_variance (-10) < 0 ∧ o.implied_variance (-10) < 0 ∧
      o.implied_volatility (-10) = Real.sqrt (o.implied_variance (-10)) := by
  have hs : Real.sqrt ((-10 - 0) * (-10 - 0) + 2 * 2) < 11 := by
    rw [Real.sqrt_lt' (by norm_num)]
    norm_num
  have htv : wingSlice.total_variance (-10) < 0 := by
    simp only [total_variance, wingSlice]
    norm_num at hs ⊢
    linarith
  refine ⟨wingSlice, wingSlice_construct, ?_, rfl, ?_, htv, ?_, rfl⟩
  · norm_num [wingSlice]
  · norm_num [wingSlice]
  · have h : wingSlice.implied_variance (-10) = wingSlice.total_variance (-10) := by
      simp [implied_variance, wingSlice]
    rw [h]
    exact htv

/-- C17 at a failing input: for the constructed `SVI(1, -3/10, 1, 1, 2, 1)`
(`b = 1, m = 3, s = 4`), `dw2dk2(0)` is `sqrt(implied_variance(0)) = sqrt 3`,
not the second derivative `b*s^2/((k-m)^2 + s^2)^(3/2) = 16/125`. -/
theorem svi_dw2dk2_not_second_derivative :
    ∃ o, construct sampleSlice (1 / 3) 1 (-3 / 10) 1 1 2 1 = .ok o ∧
      o.dw2dk2 0 = Real.sqrt 3 ∧
      o.dw2dk2 0 ≠ o.b * o.s ^ 2 / ((0 - o.m) ^ 2 + o.s ^ 2) ^ ((3 : ℝ) / 2) := by
  have hd : sampleSlice.dw2dk2 0 = Real.sqrt 3 := by
    simp only [dw2dk2, implied_variance]
    rw [sampleSlice_total_variance_zero]
    norm_num [sampleSlice]
  refine ⟨sampleSlice, sampleSlice_construct, hd, ?_⟩
  rw [hd]
  have h1 : (1 : ℝ) ≤ Real.sqrt 3 := by
    rw [Real.one_le_sqrt]
    norm_num
  have h25 : (25 : ℝ) ≤ (25 : ℝ) ^ ((3 : ℝ) / 2) := by
    have h := Real.rpow_le_rpow_of_exponent_le (x := (25 : ℝ)) (y := 1) (z := (3 : ℝ) / 2)
      (by norm_num) (by norm_num)
    rwa [Real.rpow_one] at h
  have hval : sampleSlice.b * sampleSlice.s ^ 2
      / ((0 - sampleSlice.m) ^ 2 + sampleSlice.s ^ 2) ^ ((3 : ℝ) / 2)
      = 16 / (25 : ℝ) ^ ((3 : ℝ) / 2) := by
    norm_num [sampleSlice]
  rw [hval]
  have hlt : 16 / (25 : ℝ) ^ ((3 : ℝ) / 2) < 1 := by
    rw [div_lt_one (by linarith)]
    linarith
  linarith

/-- C18: for every constructed SVI and every `k`, `dwdk(k)` is the derivative
at `k` of `total_variance`. -/
theorem svi_dwdk_is_derivative (mem : SVI) (factor vt ut ct pt vmt t : ℝ) (o : SVI)
    (h : construct mem factor vt ut ct pt vmt t = .ok o) (k : ℝ) :
    HasDerivAt (fun x => o.total_variance x) (o.dwdk k) k := by
  obtain ⟨-, -, hs, -, -, -⟩ := svi_construct_ok mem factor vt ut ct pt vmt t o h
  have hpos : 0 < (k - o.m) * (k - o.m) + o.s * o.s := by nlinarith [mul_self_nonneg (k - o.m)]
  have h1 : HasDerivAt (fun x : ℝ => x - o.m) 1 k := (hasDerivAt_id k).sub_const o.m
  have h2 : HasDerivAt (fun x : ℝ => (x - o.m) * (x - o.m) + o.s * o.s)
      (1 * (k - o.m) + (k - o.m) * 1) k := (h1.mul h1).add_const _
  have h3 := h2.sqrt hpos.ne'
  have h4 : HasDerivAt (fun x : ℝ => o.p * (x - o.m)) (o.p * 1) k := h1.const_mul o.p
  have h5 := ((h4.add h3).const_mul o.b).const_add o.a
  have hsq : Real.sqrt ((k - o.m) * (k - o.m) + o.s * o.s) ≠ 0 :=
    (Real.sqrt_pos.mpr hpos).ne'
  have hval : o.dwdk k = o.b * (o.p * 1 + (1 * (k - o.m) + (k - o.m) * 1)
      / (2 * Real.sqrt ((k - o.m) * (k - o.m) + o.s * o.s))) := by
    simp only [dwdk]
    field_simp
    ring
  rw [hval]
  exact h5

theorem svi_dwdk_is_derivative_witness :
    HasDerivAt (fun x => sampleSlice.total_variance x) (sampleSlice.dwdk 0) 0 :=
  svi_dwdk_is_derivative sampleSlice (1 / 3) 1 (-3 / 10) 1 1 2 1 sampleSlice
    sampleSlice_construct 0

/-- C19 at a failing input: `SVI(2, 0, 0, 0, 1, 1)` (`ct = pt = 0`). In
zero-filled storage `get_a` takes its `m == 0` branch with `p = 0`, whose
divisor `1 - sqrt(1 - p*p)` is zero, so `a` is not `T*(vmt + vt)/2`; in storage
with stale content the slice is constructed flat at `0`, not at
`T*(vmt + vt)/2 = 3/2`. -/
theorem svi_flat_slice_level :
    (zeroStorage.m = 0 ∧ 1 - Real.sqrt (1 - zeroStorage.p * zeroStorage.p) = 0) ∧
    ∀ factor : ℝ, ∃ o, construct staleStorage factor 2 0 0 0 1 1 = .ok o ∧
      ∀ k, o.total_variance k = 0 ∧ o.total_variance k ≠ 1 * (1 + 2) / 2 := by
  constructor
  · norm_num [zeroStorage]
  · intro factor
    refine ⟨staleSlice, staleStorage_construct factor, fun k => ?_⟩
    rw [staleSlice_total_variance]
    norm_num

/-- C20: for every constructed SVI, `butterfly_arbitrage_check()` returns true
if and only if `sqrt(vt*T)*max(ct, pt) < 2` and `(ct + pt)*max(ct, pt) ≤ 2`,
in terms of the constructor arguments. -/
theorem svi_butterfly_check_iff (mem : SVI) (factor vt ut ct pt vmt t : ℝ) (o : SVI)
    (h : construct mem factor vt ut ct pt vmt t = .ok o) :
    o.butterfly_arbitrage_check = true ↔
      (Real.sqrt (vt * t) * max ct pt < 2 ∧ (ct + pt) * max ct pt ≤ 2) := by
  obtain ⟨⟨hvt, -, hct, hpt, -, hT⟩, -⟩ := svi_construct_ok mem factor vt ut ct pt vmt t o h
  simp only [butterfly_arbitrage_check, hvt, hct, hpt, hT]
  split <;> simp_all

theorem svi_butterfly_check_iff_witness :
    sampleSlice.butterfly_arbitrage_check = true ↔
      (Real.sqrt (1 * 1) * max (1 : ℝ) 1 < 2 ∧ ((1 : ℝ) + 1) * max (1 : ℝ) 1 ≤ 2) :=
  svi_butterfly_check_iff sampleSlice (1 / 3) 1 (-3 / 10) 1 1 2 1 sampleSlice
    sampleSlice_construct

end SVI

namespace SSVI

/-- The outcome of the constructor, and the stored members when it returns.
The test `abs(rho) > 1` holds exactly for `2 ≤ |rho| < 2^31`. -/
theorem ssvi_construct_eq (mem : SSVI) (rho nu gamma : ℝ) :
    construct mem rho nu gamma
      = if ((rho ≤ -2 ∨ 2 ≤ rho) ∧ -2 ^ 31 < rho ∧ rho < 2 ^ 31) ∨ gamma < 0 ∨ gamma > 1
            ∨ nu < 0 then .error .SSVIWrongParameterValue
        else .ok { rho_ := rho, nu_ := mem.nu_, gamma_ := gamma } := by
  unfold construct
  simp only [gt_iff_lt, c_abs_gt_one_iff]
  by_cases h1 : (rho ≤ -2 ∨ 2 ≤ rho) ∧ -2 ^ 31 < rho ∧ rho < 2 ^ 31
  · simp [h1]
  · by_cases h2 : 1 < gamma
    · simp [h1, h2]
    · by_cases h3 : gamma < 0
      · simp [h1, h2, h3]
      · by_cases h4 : nu < 0
        · simp [h1, h2, h3, h4]
        · simp [h1, h2, h3, h4]

/-- C21 at a failing input: `SSVI(1.5, 1, 0.5)` is accepted, in whatever
storage, and the object has `|rho_| = 1.5 > 1`: the test `abs(rho) > 1` calls
the integer `abs`, which truncates `1.5` to `1`. For `|rho| < 2^31` the
construction throws if and only if `|rho| ≥ 2` or `gamma < 0` or `gamma > 1` or
`nu < 0`; the boundary values `rho = 1`, `rho = -1`, `gamma = 0`, `gamma = 1`,
`nu = 0` are accepted. -/
theorem ssvi_construct_accepts_rho :
    (∀ mem : SSVI, ∃ o, construct mem 1.5 1 (1 / 2) = .ok o ∧ o.rho_ = 1.5 ∧ 1 < |o.rho_|) ∧
    (∀ (mem : SSVI) (rho nu gamma : ℝ), |rho| < 2 ^ 31 →
      ((∃ e, construct mem rho nu gamma = .error e)
        ↔ (2 ≤ |rho| ∨ gamma < 0 ∨ gamma > 1 ∨ nu < 0))) ∧
    (∀ mem : SSVI, (∃ o, construct mem 1 0 0 = .ok o) ∧ (∃ o, construct mem (-1) 0 1 = .ok o))
    := by
  refine ⟨?_, ?_, ?_⟩
  · intro mem
    refine ⟨{ rho_ := 1.5, nu_ := mem.nu_, gamma_ := 1 / 2 }, ?_, rfl, ?_⟩
    · rw [ssvi_construct_eq, if_neg (by norm_num)]
    · rw [abs_of_pos (by norm_num)]
      norm_num
  · intro mem rho nu gamma hrho
    have hr := abs_lt.mp hrho
    have h2 : (2 ≤ |rho|) ↔ (rho ≤ -2 ∨ 2 ≤ rho) := le_abs'
    rw [ssvi_construct_eq, h2]
    by_cases h : ((rho ≤ -2 ∨ 2 ≤ rho) ∧ -2 ^ 31 < rho ∧ rho < 2 ^ 31) ∨ gamma < 0 ∨ gamma > 1
        ∨ nu < 0
    · rw [if_pos h]
      constructor
      · intro _
        rcases h with h | h
        · exact Or.inl h.1
        · exact Or.inr h
      · intro _
        exact ⟨_, rfl⟩
    · rw [if_neg h]
      constructor
      · rintro ⟨e, he⟩
        cases he
      · intro h3
        exfalso
        apply h
        rcases h3 with h3 | h3
        · exact Or.inl ⟨h3, hr.1, hr.2⟩
        · exact Or.inr h3
  · intro mem
    constructor
    · rw [ssvi_construct_eq, if_neg (by norm_num)]
      exact ⟨_, rfl⟩
    · rw [ssvi_construct_eq, if_neg (by norm_num)]
      exact ⟨_, rfl⟩

/-- C22 at a failing input: `SSVI(3/5, 1, 1/2)` constructed in zero-filled
storage stores `nu_ = 0`, not the argument `nu = 1`, and `prmtrzt(1)` is `0`,
not `nu * 1^gamma = 1`; in general the stored `nu_` is the prior content of
the storage. -/
theorem ssvi_nu_not_stored :
    (∃ o, construct zeroStorage (3 / 5) 1 (1 / 2) = .ok o ∧ o.nu_ = 0 ∧ o.nu_ ≠ 1 ∧
      o.prmtrzt 1 = 0 ∧ o.prmtrzt 1 ≠ 1 * (1 : ℝ) ^ ((1 : ℝ) / 2)) ∧
    ∀ (mem : SSVI) (rho nu gamma : ℝ) (o : SSVI),
      construct mem rho nu gamma = .ok o → o.nu_ = mem.nu_ := by
  constructor
  · refine ⟨{ rho_ := 3 / 5, nu_ := 0, gamma_ := 1 / 2 }, ?_, rfl, by norm_num, ?_, ?_⟩
    · rw [ssvi_construct_eq, if_neg (by norm_num [abs_le])]
      rfl
    · simp [prmtrzt]
    · simp [prmtrzt]
  · intro mem rho nu gamma o h
    rw [ssvi_construct_eq] at h
    split_ifs at h
    injection h with h
    subst h
    rfl

/-- C27: for every SSVI with `rho ≠ 0` and every `theta > 0`,
`calendar_spread_arbitrage_check(theta)` returns true if and only if
`0 ≤ dprmtrzt(theta) ≤ prmtrzt(theta)*(1 + sqrt(1 - rho^2))/rho^2`. -/
theorem ssvi_calendar_check_iff (self : SSVI) (theta : ℝ) (_hrho : self.rho_ ≠ 0)
    (_htheta : 0 < theta) :
    self.calendar_spread_arbitrage_check theta = true ↔
      (0 ≤ self.dprmtrzt theta ∧
        self.dprmtrzt theta
          ≤ self.prmtrzt theta * (1 + Real.sqrt (1 - self.rho_ ^ 2)) / self.rho_ ^ 2) := by
  simp only [calendar_spread_arbitrage_check, ge_iff_le, ← pow_two]
  split <;> simp_all

theorem ssvi_calendar_check_iff_witness :
    sampleSurface.calendar_spread_arbitrage_check 1 = true ↔
      (0 ≤ sampleSurface.dprmtrzt 1 ∧
        sampleSurface.dprmtrzt 1
          ≤ sampleSurface.prmtrzt 1 * (1 + Real.sqrt (1 - sampleSurface.rho_ ^ 2))
            / sampleSurface.rho_ ^ 2) :=
  ssvi_calendar_check_iff sampleSurface 1 (by norm_num [sampleSurface]) (by norm_num)

end SSVI

namespace SVI

theorem sqrt_four : Real.sqrt 4 = 2 := by
  rw [show (4 : ℝ) = 2 ^ 2 by norm_num]
  exact Real.sqrt_sq (by norm_num)

/-- The slice construction to which `get_svi(1, 1)` delegates for the surface
`rho = 3/5`, stored `nu_ = 1`, `gamma = 1/2`. -/
theorem sampleSurface_get_svi (mem : SVI) (factor : ℝ) :
    SSVI.sampleSurface.get_svi mem factor 1 1
      = construct mem factor 1 (3 / 10) (4 / 5) (1 / 5) (16 / 25) 1 := by
  norm_num [SSVI.get_svi, SSVI.prmtrzt, SSVI.sampleSurface]

theorem surfaceSlice_zeroStorage (factor : ℝ) :
    construct zeroStorage factor 1 (3 / 10) (4 / 5) (1 / 5) (16 / 25) 1
      = .error .SVIWrongParameterValue := by
  have h35 : |(3 / 5 : ℝ)| = 3 / 5 := abs_of_pos (by norm_num)
  norm_num [c_abs_gt_one_real, construct, memberInit, bodyChecks, zeroStorage, get_a, get_beta, get_alpha, get_b,
    get_m, get_s, get_p, get_dmdt, get_dadt, get_dsdt, get_dbdt, bind, Except.bind, pure,
    Except.pure, h35]

/-- Read in the order of the initializer list, the initializer expressions of
`SVI(1, 3/10, 4/5, 1/5, 16/25, 1)` give `s = alpha*m = -4/5`, and the body
throws at `s <= 0`. -/
theorem surfaceSlice_asWritten :
    construct surfaceSliceStorage (-6 / 5) 1 (3 / 10) (4 / 5) (1 / 5) (16 / 25) 1
      = .error .SVIWrongParameterValue := by
  have h : memberInit surfaceSliceStorage (-6 / 5) 1 (3 / 10) (4 / 5) (1 / 5) (16 / 25) 1
      = .ok surfaceSliceStorage := by
    apply memberInit_fixed surfaceSliceStorage (-6 / 5)
    · norm_num [get_a, surfaceSliceStorage, sqrt_sixteen, sqrt_twentyfive]
    · norm_num [c_abs_gt_one_real, get_beta, surfaceSliceStorage, abs_le]
    · norm_num [get_alpha, surfaceSliceStorage, sqrt_sixteen, sqrt_nine]
    · norm_num [get_b, surfaceSliceStorage]
    · norm_num [get_m, surfaceSliceStorage, sqrt_sixteen, sqrt_nine, sqrt_twentyfive]
    · norm_num [get_s, surfaceSliceStorage]
    · norm_num [c_abs_gt_one_real, get_p, surfaceSliceStorage, abs_le]
    · norm_num [get_dmdt, surfaceSliceStorage]
    · norm_num [get_dadt, surfaceSliceStorage, sqrt_sixteen, sqrt_twentyfive]
    · norm_num [get_dsdt, surfaceSliceStorage]
    · norm_num [get_dbdt, surfaceSliceStorage]
  unfold construct
  rw [h]
  norm_num [Except.bind, bodyChecks, surfaceSliceStorage]

/-- C23 at a failing input: the constructed `SSVI(3/5, 1, 1/2)` (stored
`nu_ = 1`, `|rho| < 1`) with `theta = 1`, `T = 1`. The slice construction to
which `get_svi` delegates throws, both in zero-filled storage and in storage
that holds the values of the initializer-list order (`s = -4/5`). -/
theorem ssvi_get_svi_raises :
    ∃ S, SSVI.construct SSVI.sampleSurface (3 / 5) 1 (1 / 2) = .ok S ∧
      (∀ factor, S.get_svi zeroStorage factor 1 1 = .error .SVIWrongParameterValue) ∧
      S.get_svi surfaceSliceStorage (-6 / 5) 1 1 = .error .SVIWrongParameterValue := by
  refine ⟨SSVI.sampleSurface, ?_, ?_, ?_⟩
  · rw [SSVI.ssvi_construct_eq, if_neg (by norm_num [abs_le])]
    rfl
  · intro factor
    rw [sampleSurface_get_svi]
    exact surfaceSlice_zeroStorage factor
  · rw [sampleSurface_get_svi]
    exact surfaceSlice_asWritten

/-- C24 at a failing input: `SSVI(3/5, 1, 1/2)` constructed in zero-filled
storage stores `nu_ = 0`, so `get_svi(1, 1)` passes `ut = pt = 0`; the slice
it returns in zero-filled storage has `ut_ = 0`, and `get_power_law_ssvi`
divides `pt_` by `ut_ = 0`. With `nu_ = 1` stored, the slice construction in
storage that holds the values of the initializer-list order throws, and no
`SSVI` is obtained. -/
theorem ssvi_round_trip_rho_fails :
    (∃ S, SSVI.construct SSVI.zeroStorage (3 / 5) 1 (1 / 2) = .ok S ∧ S.nu_ = 0 ∧
      ∀ factor, ∃ V, S.get_svi zeroStorage factor 1 1 = .ok V ∧ V.ut_ = 0 ∧ V.pt_ = 0) ∧
    SSVI.sampleSurface.get_svi surfaceSliceStorage (-6 / 5) 1 1
      = .error .SVIWrongParameterValue := by
  refine ⟨⟨{ rho_ := 3 / 5, nu_ := 0, gamma_ := 1 / 2 }, ?_, rfl, ?_⟩, ?_⟩
  · rw [SSVI.ssvi_construct_eq, if_neg (by norm_num [abs_le])]
    rfl
  · intro factor
    refine ⟨flatZeroSlice, ?_, rfl, rfl⟩
    norm_num [c_abs_gt_one_real, SSVI.get_svi, SSVI.prmtrzt, construct, memberInit, bodyChecks, zeroStorage,
      flatZeroSlice,
      get_a, get_beta, get_alpha, get_b, get_m, get_s, get_p, get_dmdt, get_dadt, get_dsdt,
      get_dbdt, bind, Except.bind, pure, Except.pure]
  · rw [sampleSurface_get_svi]
    exact surfaceSlice_asWritten

theorem sampleSurface_get_svi_four (mem : SVI) (factor : ℝ) :
    SSVI.sampleSurface.get_svi mem factor 4 1
      = construct mem factor 4 (6 / 5) (16 / 5) (4 / 5) (64 / 25) 1 := by
  have h : (4 : ℝ) ^ ((1 : ℝ) / 2) = 2 := by
    rw [← Real.sqrt_eq_rpow, sqrt_four]
  simp only [SSVI.get_svi, SSVI.prmtrzt, SSVI.sampleSurface, h, sqrt_four]
  norm_num

/-- C25 at a failing input: the constructed `SSVI(3/5, 1, 1/2)` (stored
`nu_ = 1`) with `theta = 4`, `T = 1`. Every slice that `get_svi` returns has
`ut_ = 6/5`, `pt_ = 4/5`, so `get_power_law_ssvi` passes the `nu` argument
`2*ut_/rho_ = 4 = phi(theta)*sqrt(theta)`, not the original `nu = 1`; and in
zero-filled storage `get_svi` throws. -/
theorem ssvi_round_trip_nu_fails :
    (∀ (mem : SVI) (factor : ℝ) (V : SVI), SSVI.sampleSurface.get_svi mem factor 4 1 = .ok V →
      V.power_law_ssvi_args.1 = 3 / 5 ∧ V.power_law_ssvi_args.2.1 = 4 ∧
        V.power_law_ssvi_args.2.1 ≠ 1) ∧
    ∀ factor, SSVI.sampleSurface.get_svi zeroStorage factor 4 1
      = .error .SVIWrongParameterValue := by
  constructor
  · intro mem factor V h
    rw [sampleSurface_get_svi_four] at h
    obtain ⟨⟨-, hut, -, hpt, -, -⟩, -⟩ := svi_construct_ok mem factor _ _ _ _ _ _ V h
    have h1 : V.power_law_ssvi_args.1 = 3 / 5 := by
      simp only [power_law_ssvi_args, hut, hpt]
      norm_num
    have h2 : V.power_law_ssvi_args.2.1 = 4 := by
      simp only [power_law_ssvi_args, hut, hpt]
      norm_num
    refine ⟨h1, h2, ?_⟩
    rw [h2]
    norm_num
  · intro factor
    rw [sampleSurface_get_svi_four]
    have h35 : |(3 / 5 : ℝ)| = 3 / 5 := abs_of_pos (by norm_num)
    norm_num [c_abs_gt_one_real, construct, memberInit, bodyChecks, zeroStorage, get_a, get_beta, get_alpha,
      get_b, get_m, get_s, get_p, get_dmdt, get_dadt, get_dsdt, get_dbdt, bind, Except.bind,
      pure, Except.pure, h35, sqrt_four]

/-- In `driftStorage`, `SVI(1, -3/10, 1, 1, 2, 1)` is constructed as
`driftSlice`. -/
theorem driftStorage_construct :
    construct driftStorage (1 / 3) 1 (-3 / 10) 1 1 2 1 = .ok driftSlice := by
  have h35 : |(3 / 5 : ℝ)| = 3 / 5 := abs_of_pos (by norm_num)
  norm_num [c_abs_gt_one_real, construct, memberInit, bodyChecks, driftStorage, driftSlice, sampleSlice, get_a,
    get_beta, get_alpha, get_b, get_m, get_s, get_p, get_dmdt, get_dadt, get_dsdt, get_dbdt,
    bind, Except.bind, pure, Except.pure, h35, sqrt_nine, sqrt_sixteen, sqrt_twentyfive]

/-- C30 at a failing input: `SVI(1, -3/10, 1, 1, 2, 1)` is constructed in
`driftStorage` with stored `a = 0`, while the formula of `a` evaluated on the
final stored members gives `-2`: `get_a` ran first, on the prior content of `m`.
In storage that already holds the derived values the same call stores
`a = -2`. -/
theorem svi_init_not_in_dependency_order :
    (∃ o, construct driftStorage (1 / 3) 1 (-3 / 10) 1 1 2 1 = .ok o ∧
      o.a = 0 ∧ get_a o = -2 ∧ o.a ≠ get_a o) ∧
    (∃ o, construct sampleSlice (1 / 3) 1 (-3 / 10) 1 1 2 1 = .ok o ∧ o.a = -2) := by
  have hg : get_a driftSlice = -2 := by
    norm_num [get_a, driftSlice, sampleSlice]
  refine ⟨⟨driftSlice, driftStorage_construct, rfl, hg, ?_⟩, sampleSlice, sampleSlice_construct, rfl⟩
  rw [hg]
  norm_num [driftSlice, sampleSlice]

end SVI

/-! ### `timestamp.cpp` -/

theorem nearest_double_of_lt (a : ℕ) (h : a < 2 ^ 53) : nearest_double a = a := by
  have hlog : Nat.log 2 a - 52 = 0 := by
    rcases Nat.eq_zero_or_pos a with h0 | h0
    · rw [h0]
      simp
    · have := Nat.log_lt_of_lt_pow h0.ne' h
      omega
  simp only [nearest_double, hlog, pow_zero, Nat.div_one, Nat.mod_one, mul_zero, mul_one]
  rw [if_neg (by omega)]

/-- The value of the rounding when the binary exponent is known. -/
theorem nearest_double_of_log (a m : ℕ) (h1 : 2 ^ m ≤ a) (h2 : a < 2 ^ (m + 1)) :
    nearest_double a = (if 2 ^ (m - 52) < 2 * (a % 2 ^ (m - 52))
        ∨ (2 ^ (m - 52) = 2 * (a % 2 ^ (m - 52)) ∧ a / 2 ^ (m - 52) % 2 = 1)
      then (a / 2 ^ (m - 52) + 1) * 2 ^ (m - 52) else a / 2 ^ (m - 52) * 2 ^ (m - 52)) := by
  have hlog : Nat.log 2 a = m := Nat.log_eq_of_pow_le_of_lt_pow h1 h2
  simp only [nearest_double, hlog]

theorem to_double_of_lt (n : ℤ) (h : n.natAbs < 2 ^ 53) : to_double n = n := by
  unfold to_double
  rw [nearest_double_of_lt _ h]
  split
  · omega
  · omega

theorem to_double_natCast (a : ℕ) : to_double (a : ℤ) = (nearest_double a : ℤ) := by
  simp [to_double]

theorem wrap_long_long_of_mem (n : ℤ) (h0 : -2 ^ 63 ≤ n) (h1 : n < 2 ^ 63) :
    wrap_long_long n = n := by
  unfold wrap_long_long
  omega

theorem c_round_intCast (n : ℤ) : c_round (n : ℝ) = (n : ℝ) := by
  have hfl : ⌊(1 / 2 : ℝ)⌋ = 0 := by
    rw [Int.floor_eq_iff]
    norm_num
  have hce : ⌈(-(1 / 2) : ℝ)⌉ = 0 := by
    rw [Int.ceil_eq_iff]
    norm_num
  unfold c_round
  split
  · rw [Int.floor_int_add, hfl, add_zero]
  · rw [sub_eq_add_neg, add_comm, Int.ceil_add_int, hce, zero_add]

theorem to_long_long_int (n : ℤ) (h0 : -2 ^ 63 ≤ n) (h1 : n < 2 ^ 63) :
    to_long_long (n : ℝ) = n := by
  have h : (if (0 : ℝ) ≤ (n : ℝ) then ⌊(n : ℝ)⌋ else ⌈(n : ℝ)⌉) = n := by
    split
    · exact Int.floor_intCast n
    · exact Int.ceil_intCast n
  simp only [to_long_long, h]
  rw [if_pos ⟨h0, h1⟩]

theorem to_long_long_int_out (n : ℤ) (h : n < -2 ^ 63 ∨ 2 ^ 63 ≤ n) :
    to_long_long (n : ℝ) = -2 ^ 63 := by
  have h' : (if (0 : ℝ) ≤ (n : ℝ) then ⌊(n : ℝ)⌋ else ⌈(n : ℝ)⌉) = n := by
    split
    · exact Int.floor_intCast n
    · exact Int.ceil_intCast n
  simp only [to_long_long, h']
  rw [if_neg]
  omega

theorem nearest_double_year360 : nearest_double 31104000000000000 = 31104000000000000 := by
  rw [nearest_double_of_log _ 54 (by norm_num) (by norm_num)]
  norm_num

theorem nearest_double_year365 : nearest_double 31536000000000000 = 31536000000000000 := by
  rw [nearest_double_of_log _ 54 (by norm_num) (by norm_num)]
  norm_num

theorem nearest_double_year364 : nearest_double 31449600000000000 = 31449600000000000 := by
  rw [nearest_double_of_log _ 54 (by norm_num) (by norm_num)]
  norm_num

/-- The value `convert_timestamp` computes while nothing is rounded: the
truncated quotient of the two units times the value. -/
theorem convert_timestamp_eq (timestamp : EpochTimestamp) (type : EpochTimestampType)
    (h0 : 0 ≤ timestamp.tmsp)
    (h1 : Int.tdiv type.val timestamp.type_.val * timestamp.tmsp < 2 ^ 53)
    (h2 : timestamp.tmsp < 2 ^ 53) :
    convert_timestamp timestamp type
      = EpochTimestamp.construct (Int.tdiv type.val timestamp.type_.val * timestamp.tmsp) type := by
  have hq0 : 0 ≤ Int.tdiv type.val timestamp.type_.val := by
    cases type <;> cases timestamp.type_ <;> decide
  have hq1 : Int.tdiv type.val timestamp.type_.val < 2 ^ 53 := by
    cases type <;> cases timestamp.type_ <;> decide
  have hp0 : 0 ≤ Int.tdiv type.val timestamp.type_.val * timestamp.tmsp := mul_nonneg hq0 h0
  unfold convert_timestamp
  simp only
  rw [to_double_of_lt (Int.tdiv type.val timestamp.type_.val) (by omega),
    to_double_of_lt timestamp.tmsp (by omega), to_double_of_lt _ (by omega), c_round_intCast,
    to_long_long_int _ (by omega) (by omega)]

/-- C28 at a failing input: `convert_timestamp` of `5000 MILLISECONDS` to
`SECONDS` returns `0 SECONDS`, not `5 SECONDS`, because `type1/type2 = 1/1000`
is an integer division; and `5 SECONDS` converted to `MILLISECONDS` and back
is `0 SECONDS`. -/
theorem convert_timestamp_to_coarser :
    convert_timestamp { tmsp := 5000, type_ := .MILLISECONDS } .SECONDS
      = .ok { tmsp := 0, type_ := .SECONDS } ∧
    round ((5000 : ℝ) * 1 / 1000) = 5 ∧
    convert_timestamp { tmsp := 5, type_ := .SECONDS } .MILLISECONDS
      = .ok { tmsp := 5000, type_ := .MILLISECONDS } ∧
    convert_timestamp { tmsp := 5000, type_ := .MILLISECONDS } .SECONDS
      ≠ .ok { tmsp := 5, type_ := .SECONDS } := by
  have h1 : convert_timestamp { tmsp := 5000, type_ := .MILLISECONDS } .SECONDS
      = .ok { tmsp := 0, type_ := .SECONDS } := by
    rw [convert_timestamp_eq _ _ (by decide) (by decide) (by decide)]
    have hq : Int.tdiv 1 1000 = 0 := by decide
    simp [EpochTimestamp.construct, EpochTimestampType.val, hq]
  refine ⟨h1, ?_, ?_, ?_⟩
  · rw [show (5000 : ℝ) * 1 / 1000 = ((5 : ℤ) : ℝ) by norm_num, round_intCast]
  · rw [convert_timestamp_eq _ _ (by decide) (by decide) (by decide)]
    have hq : Int.tdiv 1000 1 = 1000 := by decide
    simp [EpochTimestamp.construct, EpochTimestampType.val, hq]
  · rw [h1]
    intro h
    injection h with h
    injection h with h
    exact absurd h (by decide)

theorem convert_to_nanoseconds (t : EpochTimestamp) (ht : 0 ≤ t.tmsp)
    (hlt : t.tmsp * (1000000000 / t.type_.val) < 2 ^ 53) :
    convert_timestamp t .NANOSECONDS
      = .ok { tmsp := t.tmsp * (1000000000 / t.type_.val), type_ := .NANOSECONDS } := by
  have hq : Int.tdiv EpochTimestampType.NANOSECONDS.val t.type_.val
      = 1000000000 / t.type_.val := by
    cases t.type_ <;> decide
  have hq1 : 1 ≤ (1000000000 : ℤ) / t.type_.val := by
    cases t.type_ <;> decide
  have hle : t.tmsp ≤ t.tmsp * (1000000000 / t.type_.val) := le_mul_of_one_le_right ht hq1
  rw [convert_timestamp_eq t _ ht (by rw [hq, mul_comm]; exact hlt) (by omega), hq, mul_comm]
  have hnn : ¬ (t.tmsp * (1000000000 / t.type_.val) < 0) :=
    not_lt.mpr (mul_nonneg ht (by omega))
  simp only [EpochTimestamp.construct, if_neg hnn]

theorem wrap_long_long_zero : wrap_long_long 0 = 0 := by
  unfold wrap_long_long
  norm_num

theorem get_total_nanoseconds_ns (delta : ℤ) (h0 : -2 ^ 53 < delta) (h1 : delta < 2 ^ 53) :
    TimeDelta.get_total_nanoseconds
        { d := 0, h := 0, m := 0, s := 0, ms := 0, mcs := 0, ns := delta } = (delta : ℝ) := by
  simp only [TimeDelta.get_total_nanoseconds, zero_mul, add_zero, zero_add,
    wrap_long_long_zero]
  rw [wrap_long_long_of_mem delta (by omega) (by omega), to_double_of_lt delta (by omega)]

/-- While no conversion rounds, that is for timestamps below `2^53`
nanoseconds, `get_year_fraction` throws `NegativeYearFraction` exactly when
`end` is before `start`, and otherwise returns the elapsed nanoseconds divided
by `B * 86400 * 10^9`. -/
theorem year_fraction_exact (start_timestamp end_timestamp : EpochTimestamp)
    (convention : DayCountConvention)
    (hs : 0 ≤ start_timestamp.tmsp) (he : 0 ≤ end_timestamp.tmsp)
    (hs53 : start_timestamp.tmsp * (1000000000 / start_timestamp.type_.val) < 2 ^ 53)
    (he53 : end_timestamp.tmsp * (1000000000 / end_timestamp.type_.val) < 2 ^ 53) :
    (get_year_fraction start_timestamp end_timestamp convention = .error .NegativeYearFraction
        ↔ end_timestamp.tmsp * (1000000000 / end_timestamp.type_.val)
            < start_timestamp.tmsp * (1000000000 / start_timestamp.type_.val)) ∧
    (start_timestamp.tmsp * (1000000000 / start_timestamp.type_.val)
        ≤ end_timestamp.tmsp * (1000000000 / end_timestamp.type_.val) →
      get_year_fraction start_timestamp end_timestamp convention
        = .ok (((end_timestamp.tmsp * (1000000000 / end_timestamp.type_.val)
              - start_timestamp.tmsp * (1000000000 / start_timestamp.type_.val) : ℤ) : ℝ)
            / ((match convention with
                | .ACT360 => 360
                | .ACT365 => 365
                | .ACT364 => 364) * 86400 * 1000000000))) := by
  set ns_start : ℤ := start_timestamp.tmsp * (1000000000 / start_timestamp.type_.val)
    with hns_start
  set ns_end : ℤ := end_timestamp.tmsp * (1000000000 / end_timestamp.type_.val) with hns_end
  have hs0 : 0 ≤ ns_start := by
    have : (0 : ℤ) ≤ 1000000000 / start_timestamp.type_.val := by
      cases start_timestamp.type_ <;> decide
    exact mul_nonneg hs this
  have he0 : 0 ≤ ns_end := by
    have : (0 : ℤ) ≤ 1000000000 / end_timestamp.type_.val := by
      cases end_timestamp.type_ <;> decide
    exact mul_nonneg he this
  have hw : wrap_long_long (ns_end - ns_start) = ns_end - ns_start :=
    wrap_long_long_of_mem _ (by omega) (by omega)
  have hdt : get_time_delta start_timestamp end_timestamp .NANOSECONDS
      = .ok { d := 0, h := 0, m := 0, s := 0, ms := 0, mcs := 0, ns := ns_end - ns_start } := by
    simp only [get_time_delta, convert_to_nanoseconds _ hs hs53,
      convert_to_nanoseconds _ he he53, bind, Except.bind, pure, Except.pure]
    rw [← hns_start, ← hns_end, hw]
  have htot : to_long_long
      (TimeDelta.get_total_nanoseconds
        { d := 0, h := 0, m := 0, s := 0, ms := 0, mcs := 0, ns := ns_end - ns_start })
      = ns_end - ns_start := by
    rw [get_total_nanoseconds_ns _ (by omega) (by omega),
      to_long_long_int _ (by omega) (by omega)]
  have hd : to_double (ns_end - ns_start) = ns_end - ns_start :=
    to_double_of_lt _ (by omega)
  have h360 : to_double (360 * (24 * 60 * 60 * EpochTimestampType.NANOSECONDS.val))
      = 31104000000000000 := by
    have h := to_double_natCast 31104000000000000
    rw [nearest_double_year360] at h
    simpa [EpochTimestampType.val] using h
  have h365 : to_double (365 * (24 * 60 * 60 * EpochTimestampType.NANOSECONDS.val))
      = 31536000000000000 := by
    have h := to_double_natCast 31536000000000000
    rw [nearest_double_year365] at h
    simpa [EpochTimestampType.val] using h
  have h364 : to_double (364 * (24 * 60 * 60 * EpochTimestampType.NANOSECONDS.val))
      = 31449600000000000 := by
    have h := to_double_natCast 31449600000000000
    rw [nearest_double_year364] at h
    simpa [EpochTimestampType.val] using h
  have hok : ns_start ≤ ns_end →
      get_year_fraction start_timestamp end_timestamp convention
        = .ok (((ns_end - ns_start : ℤ) : ℝ)
            / ((match convention with
                | .ACT360 => 360
                | .ACT365 => 365
                | .ACT364 => 364) * 86400 * 1000000000)) := by
    intro hle
    have hnn : ¬ (ns_end - ns_start < 0) := by omega
    simp only [get_year_fraction, hdt, bind, Except.bind, htot, if_neg hnn, hd, h360, h365,
      h364]
    cases convention <;> simp [pure, Except.pure] <;> norm_num
  refine ⟨?_, hok⟩
  constructor
  · intro h
    by_contra hcon
    rw [hok (not_lt.mp hcon)] at h
    cases h
  · intro hlt
    have hneg : ns_end - ns_start < 0 := by omega
    simp only [get_year_fraction, hdt, bind, Except.bind, htot, if_pos hneg]

theorem to_double_start : to_double 1700000000000000000 = 1700000000000000000 := by
  have h := to_double_natCast 1700000000000000000
  rw [nearest_double_of_log _ 60 (by norm_num) (by norm_num)] at h
  norm_num at h
  exact h

theorem to_double_before_start : to_double 1699999999999999999 = 1700000000000000000 := by
  have h := to_double_natCast 1699999999999999999
  rw [nearest_double_of_log _ 60 (by norm_num) (by norm_num)] at h
  norm_num at h
  exact h

theorem convert_start :
    convert_timestamp { tmsp := 1700000000000000000, type_ := .NANOSECONDS } .NANOSECONDS
      = .ok { tmsp := 1700000000000000000, type_ := .NANOSECONDS } := by
  have hq : Int.tdiv EpochTimestampType.NANOSECONDS.val EpochTimestampType.NANOSECONDS.val = 1 := by
    decide
  unfold convert_timestamp
  simp only [hq]
  rw [to_double_of_lt 1 (by decide), to_double_start, one_mul, to_double_start, c_round_intCast,
    to_long_long_int _ (by norm_num) (by norm_num)]
  rfl

theorem convert_before_start :
    convert_timestamp { tmsp := 1699999999999999999, type_ := .NANOSECONDS } .NANOSECONDS
      = .ok { tmsp := 1700000000000000000, type_ := .NANOSECONDS } := by
  have hq : Int.tdiv EpochTimestampType.NANOSECONDS.val EpochTimestampType.NANOSECONDS.val = 1 := by
    decide
  unfold convert_timestamp
  simp only [hq]
  rw [to_double_of_lt 1 (by decide), to_double_before_start, one_mul, to_double_start,
    c_round_intCast, to_long_long_int _ (by norm_num) (by norm_num)]
  rfl

/-- C29 at a failing input: `start = 1700000000000000000 NANOSECONDS` and
`end` one nanosecond earlier. `convert_timestamp` passes both values through a
`double`, where they round to the same number, so the difference is `0`, no
`NegativeYearFraction` is thrown and `0` is returned. While no conversion
rounds, that is for timestamps below `2^53` nanoseconds, the function throws
exactly when `end` is before `start`, and otherwise returns the elapsed
nanoseconds divided by `B * 86400 * 10^9`. -/
theorem year_fraction_precision_loss :
    (1699999999999999999 : ℤ) < 1700000000000000000 ∧
    get_year_fraction { tmsp := 1700000000000000000, type_ := .NANOSECONDS }
        { tmsp := 1699999999999999999, type_ := .NANOSECONDS } .ACT360 = .ok 0 ∧
    ∀ (start_timestamp end_timestamp : EpochTimestamp) (convention : DayCountConvention),
      0 ≤ start_timestamp.tmsp → 0 ≤ end_timestamp.tmsp →
      start_timestamp.tmsp * (1000000000 / start_timestamp.type_.val) < 2 ^ 53 →
      end_timestamp.tmsp * (1000000000 / end_timestamp.type_.val) < 2 ^ 53 →
      (get_year_fraction start_timestamp end_timestamp convention
          = .error .NegativeYearFraction
        ↔ end_timestamp.tmsp * (1000000000 / end_timestamp.type_.val)
            < start_timestamp.tmsp * (1000000000 / start_timestamp.type_.val)) ∧
      (start_timestamp.tmsp * (1000000000 / start_timestamp.type_.val)
          ≤ end_timestamp.tmsp * (1000000000 / end_timestamp.type_.val) →
        get_year_fraction start_timestamp end_timestamp convention
          = .ok (((end_timestamp.tmsp * (1000000000 / end_timestamp.type_.val)
                - start_timestamp.tmsp * (1000000000 / start_timestamp.type_.val) : ℤ) : ℝ)
              / ((match convention with
                  | .ACT360 => 360
                  | .ACT365 => 365
                  | .ACT364 => 364) * 86400 * 1000000000))) := by
  refine ⟨by norm_num, ?_, year_fraction_exact⟩
  have hdt : get_time_delta { tmsp := 1700000000000000000, type_ := .NANOSECONDS }
      { tmsp := 1699999999999999999, type_ := .NANOSECONDS } .NANOSECONDS
      = .ok { d := 0, h := 0, m := 0, s := 0, ms := 0, mcs := 0, ns := 0 } := by
    simp only [get_time_delta, convert_start, convert_before_start, bind, Except.bind, pure,
      Except.pure, sub_self, wrap_long_long_zero]
  have htot : to_long_long
      (TimeDelta.get_total_nanoseconds
        { d := 0, h := 0, m := 0, s := 0, ms := 0, mcs := 0, ns := 0 }) = 0 := by
    rw [get_total_nanoseconds_ns 0 (by norm_num) (by norm_num)]
    exact to_long_long_int 0 (by norm_num) (by norm_num)
  have hd0 : to_double 0 = 0 := to_double_of_lt 0 (by decide)
  simp only [get_year_fraction, hdt, bind, Except.bind, htot, lt_self_iff_false, if_false, hd0,
    Int.cast_zero, zero_div]
  rfl

namespace SVI

theorem shadowSlice_construct :
    construct sampleSlice 1 1 (-3 / 10) 1 1 2 1 = .ok shadowSlice := by
  have h35 : |(3 / 5 : ℝ)| = 3 / 5 := abs_of_pos (by norm_num)
  norm_num [c_abs_gt_one_real, construct, memberInit, bodyChecks, shadowSlice, sampleSlice, get_a,
    get_beta, get_alpha, get_b, get_m, get_s, get_p, get_dmdt, get_dadt, get_dsdt, get_dbdt,
    bind, Except.bind, pure, Except.pure, h35, sqrt_nine, sqrt_sixteen, sqrt_twentyfive]

theorem memberInit_dmdt (mem : SVI) (factor vt ut ct pt vmt t : ℝ) (self : SVI)
    (h : memberInit mem factor vt ut ct pt vmt t = .ok self) :
    self.dmdt = (if self.b = 0 then 0
      else (vt - vmt) * (self.b - t * mem.dbdt) / (factor * self.b * self.b)) := by
  have h0 : (0.0 : ℝ) = 0 := by norm_num
  simp only [memberInit, bind, Except.bind, pure, Except.pure] at h
  split at h
  · cases h
  · rename_i vbeta hbeta
    split at h
    · cases h
    · rename_i vb hb
      split at h
      · cases h
      · rename_i vp hp
        injection h with h
        subst h
        simp only [get_dmdt, h0]

/-- The stored `dmdt` of every returning run of the constructor: the value of
the return statement of `get_dmdt` on the unassigned `factor` and on the prior
content of `dbdt`, and `0` when `b = 0`. -/
theorem svi_construct_dmdt (mem : SVI) (factor vt ut ct pt vmt t : ℝ) (o : SVI)
    (h : construct mem factor vt ut ct pt vmt t = .ok o) :
    o.dmdt = (if o.b = 0 then 0
      else (vt - vmt) * (o.b - t * mem.dbdt) / (factor * o.b * o.b)) := by
  unfold construct at h
  cases hm : memberInit mem factor vt ut ct pt vmt t with
  | error e =>
    rw [hm] at h
    cases h
  | ok self =>
    rw [hm] at h
    obtain ⟨ho, -⟩ := bodyChecks_ok self o h
    subst ho
    exact memberInit_dmdt mem factor vt ut ct pt vmt t _ hm

/-- C31 at a failing input: `SVI(1, -3/10, 1, 1, 2, 1)` with `b = 1 ≠ 0` and
`alpha = 4/3 ≥ 0`. When the unassigned local `factor` holds `1` the stored
`dmdt` is `-1/2`, while `(vt - vmt)*(b - T*dbdt)/(factor*b^2)` with the value
`-p + sqrt(1 + alpha^2) - alpha*sqrt(1 - p^2) = 1/3` of the taken branch is
`-3/2`; the stored value is `-3/2` only when the local happens to hold
`1/3`. In every returning run the stored `dmdt` is `0` when `b = 0`, and
otherwise `(vt - vmt)*(b - T*dbdt0)/(factor*b*b)` for the unassigned `factor`
and the prior content `dbdt0` of the member `dbdt`. -/
theorem svi_dmdt_uses_unassigned_factor :
    (∃ o, construct sampleSlice 1 1 (-3 / 10) 1 1 2 1 = .ok o ∧ o.b ≠ 0 ∧ ¬ (o.alpha < 0) ∧
      o.dmdt = -1 / 2 ∧
      (o.vt_ - o.vmt_) * (o.b - o.T_ * o.dbdt)
          / ((-o.p + Real.sqrt (1 + o.alpha ^ 2) - o.alpha * Real.sqrt (1 - o.p ^ 2))
              * o.b ^ 2) = -3 / 2) ∧
    (∃ o, construct sampleSlice (1 / 3) 1 (-3 / 10) 1 1 2 1 = .ok o ∧ o.dmdt = -3 / 2) ∧
    ∀ (mem : SVI) (factor vt ut ct pt vmt t : ℝ) (o : SVI),
      construct mem factor vt ut ct pt vmt t = .ok o →
      o.dmdt = (if o.b = 0 then 0
        else (vt - vmt) * (o.b - t * mem.dbdt) / (factor * o.b * o.b)) := by
  refine ⟨⟨shadowSlice, shadowSlice_construct, ?_, ?_, rfl, ?_⟩,
    ⟨sampleSlice, sampleSlice_construct, rfl⟩, svi_construct_dmdt⟩
  · norm_num [shadowSlice, sampleSlice]
  · norm_num [shadowSlice, sampleSlice]
  · norm_num [shadowSlice, sampleSlice, sqrt_nine, sqrt_twentyfive]

theorem steepSlice_construct :
    construct staleStorage 1 4 (-3 / 20) 1 1 6 1 = .ok steepSlice := by
  have h35 : |(3 / 5 : ℝ)| = 3 / 5 := abs_of_pos (by norm_num)
  norm_num [c_abs_gt_one_real, construct, memberInit, bodyChecks, staleStorage, steepSlice, get_a,
    get_beta, get_alpha, get_b, get_m, get_s, get_p, get_dmdt, get_dadt, get_dsdt, get_dbdt,
    bind, Except.bind, pure, Except.pure, h35, sqrt_four, sqrt_nine, sqrt_sixteen,
    sqrt_twentyfive]

/-- C32 at a failing input: `SVI(4, -3/20, 1, 1, 6, 1)`, constructed in
`staleStorage`, stores `dbdt = get_dbdt() = vt*(ct + pt)/(4*sqrt(T)) = 2`. With
`vt = 4`, `ct = pt = 1` held fixed the raw parameter is
`b(T) = sqrt(4*T)*(1 + 1)/2`, whose derivative at `T = 1` is `1`. -/
theorem svi_dbdt_not_derivative_of_b :
    ∃ o, construct staleStorage 1 4 (-3 / 20) 1 1 6 1 = .ok o ∧
      o.dbdt = 2 ∧ get_dbdt o = 2 ∧
      (∀ T : ℝ, get_b { o with T_ := T } = .ok (Real.sqrt (4 * T) * (1 + 1) / 2)) ∧
      HasDerivAt (fun T : ℝ => Real.sqrt (4 * T) * (1 + 1) / 2) 1 1 ∧
      ¬ HasDerivAt (fun T : ℝ => Real.sqrt (4 * T) * (1 + 1) / 2) (get_dbdt o) 1 := by
  have hd : HasDerivAt (fun T : ℝ => Real.sqrt (4 * T) * (1 + 1) / 2) 1 1 := by
    have h1 : HasDerivAt (fun T : ℝ => 4 * T) (4 * 1) 1 := (hasDerivAt_id 1).const_mul 4
    have h2 := ((h1.sqrt (by norm_num)).mul_const ((1 : ℝ) + 1)).div_const 2
    have hv : (4 * 1 : ℝ) / (2 * Real.sqrt (4 * 1)) * (1 + 1) / 2 = 1 := by
      rw [mul_one, sqrt_four]
      norm_num
    rw [hv] at h2
    exact h2
  have hg : get_dbdt steepSlice = 2 := by
    norm_num [get_dbdt, steepSlice]
  refine ⟨steepSlice, steepSlice_construct, rfl, hg, ?_, hd, ?_⟩
  · intro T
    have hnn : ¬ (Real.sqrt (4 * T) * (1 + 1) / 2 < 0) := by
      have := Real.sqrt_nonneg (4 * T)
      apply not_lt.mpr
      positivity
    simp only [get_b, steepSlice, if_neg hnn]
  · rw [hg]
    intro h
    have := hd.unique h
    norm_num at this

end SVI

namespace SSVI

/-- The derivative of the power-law function `theta ↦ nu_*theta^gamma_` at a
positive `theta`. -/
theorem prmtrzt_hasDerivAt (self : SSVI) (theta : ℝ) (h : 0 < theta) :
    HasDerivAt self.prmtrzt (self.nu_ * (self.gamma_ * theta ^ (self.gamma_ - 1))) theta := by
  have hd := (@Real.hasDerivAt_rpow_const theta self.gamma_ (Or.inl h.ne')).const_mul self.nu_
  exact hd

/-- C33 at a failing input: the constructed `SSVI(0, 1, 1)` (stored `nu_ = 1`)
and `theta = 2`. The power-law function is `theta ↦ theta`, with derivative `1`,
while `dprmtrzt(2) = (1 - gamma)*prmtrzt(2) = 0`. In general the derivative of
`prmtrzt` at `theta > 0` is `nu*gamma*theta^(gamma - 1)`. -/
theorem ssvi_dprmtrzt_not_derivative :
    (∀ (self : SSVI) (theta : ℝ), 0 < theta →
      HasDerivAt self.prmtrzt (self.nu_ * (self.gamma_ * theta ^ (self.gamma_ - 1))) theta) ∧
    ∃ o, construct { rho_ := 0, nu_ := 1, gamma_ := 0 } 0 1 1 = .ok o ∧
      HasDerivAt o.prmtrzt 1 2 ∧ o.dprmtrzt 2 = 0 ∧
      ¬ HasDerivAt o.prmtrzt (o.dprmtrzt 2) 2 := by
  refine ⟨prmtrzt_hasDerivAt, { rho_ := 0, nu_ := 1, gamma_ := 1 }, ?_, ?_, ?_, ?_⟩
  · rw [ssvi_construct_eq, if_neg (by norm_num)]
  · have h := prmtrzt_hasDerivAt { rho_ := 0, nu_ := 1, gamma_ := 1 } 2 (by norm_num)
    simpa using h
  · norm_num [dprmtrzt]
  · have h := prmtrzt_hasDerivAt { rho_ := 0, nu_ := 1, gamma_ := 1 } 2 (by norm_num)
    have h1 : HasDerivAt (prmtrzt { rho_ := 0, nu_ := 1, gamma_ := 1 }) 1 2 := by
      simpa using h
    intro h2
    have := h1.unique h2
    norm_num [dprmtrzt] at this

/-- Where `total_variance_double` is a number, it is `total_variance`. -/
theorem total_variance_double_eq (self : SSVI) (k theta v : ℝ)
    (h : self.total_variance_double k theta = some v) : v = self.total_variance k theta := by
  unfold total_variance_double prmtrzt_double c_pow at h
  by_cases h1 : (theta < 0 ∧ ((⌊self.gamma_⌋ : ℤ) : ℝ) ≠ self.gamma_)
      ∨ (theta = 0 ∧ self.gamma_ < 0)
  · rw [if_pos h1] at h
    simp at h
  · rw [if_neg h1] at h
    simp only [Option.map_some'] at h
    split at h
    · cases h
    · rename_i term2 heq
      unfold c_sqrt at heq
      split_ifs at heq
      injection heq with heq
      injection h with h
      rw [← h, ← heq]
      rfl

/-- The square of `1 + rho*u` is at most `(u + rho)^2 + 1 - rho^2` when
`|rho| ≤ 1`. -/
theorem smile_term_sq_le (rho u : ℝ) (hrho : |rho| ≤ 1) :
    (1 + rho * u) ^ 2 ≤ (u + rho) * (u + rho) + (1 - rho * rho) := by
  have h1 : rho ^ 2 ≤ 1 := by
    have := sq_abs rho
    nlinarith [abs_nonneg rho]
  nlinarith [mul_nonneg (sq_nonneg u) (sub_nonneg.mpr h1)]

theorem ssvi_total_variance_nonneg_aux (self : SSVI) (k theta : ℝ) (hrho : |self.rho_| ≤ 1)
    (htheta : 0 ≤ theta) : 0 ≤ self.total_variance k theta := by
  have h1 := Real.abs_le_sqrt (smile_term_sq_le self.rho_ (self.prmtrzt theta * k) hrho)
  have h2 := neg_abs_le (1 + self.rho_ * (self.prmtrzt theta * k))
  have h3 : 0 ≤ 1 + self.rho_ * k * self.prmtrzt theta
      + Real.sqrt ((self.prmtrzt theta * k + self.rho_) * (self.prmtrzt theta * k + self.rho_)
          + (1 - self.rho_ * self.rho_)) := by
    have : self.rho_ * k * self.prmtrzt theta = self.rho_ * (self.prmtrzt theta * k) := by ring
    rw [this]
    linarith
  simp only [total_variance]
  have h4 : (0 : ℝ) ≤ 0.5 * theta := by
    have : (0.5 : ℝ) = 1 / 2 := by norm_num
    rw [this]
    linarith
  exact mul_nonneg h4 h3

/-- C36: for every SSVI with `|rho| ≤ 1`, every `theta ≥ 0`, every `k` and
every `t > 0`, the argument of the square root inside `total_variance` is
non-negative, `total_variance(k, theta) ≥ 0`, and the argument
`implied_variance(k, theta, t)` of the square root of `implied_volatility` is
non-negative, so that the square of the volatility is the variance. -/
theorem ssvi_total_variance_nonneg (self : SSVI) (k theta t : ℝ) (hrho : |self.rho_| ≤ 1)
    (htheta : 0 ≤ theta) (ht : 0 < t) :
    0 ≤ (self.prmtrzt theta * k + self.rho_) * (self.prmtrzt theta * k + self.rho_)
        + (1 - self.rho_ * self.rho_) ∧
    0 ≤ self.total_variance k theta ∧
    0 ≤ self.implied_variance k theta t ∧
    self.implied_volatility k theta t ^ 2 = self.implied_variance k theta t := by
  have h0 := ssvi_total_variance_nonneg_aux self k theta hrho htheta
  have h1 : 0 ≤ self.implied_variance k theta t := div_nonneg h0 ht.le
  refine ⟨?_, h0, h1, Real.sq_sqrt h1⟩
  exact le_trans (sq_nonneg _) (smile_term_sq_le self.rho_ (self.prmtrzt theta * k) hrho)

theorem ssvi_total_variance_nonneg_witness :
    0 ≤ (sampleSurface.prmtrzt 1 * 2 + sampleSurface.rho_)
          * (sampleSurface.prmtrzt 1 * 2 + sampleSurface.rho_)
        + (1 - sampleSurface.rho_ * sampleSurface.rho_) ∧
    0 ≤ sampleSurface.total_variance 2 1 ∧
    0 ≤ sampleSurface.implied_variance 2 1 3 ∧
    sampleSurface.implied_volatility 2 1 3 ^ 2 = sampleSurface.implied_variance 2 1 3 :=
  ssvi_total_variance_nonneg sampleSurface 2 1 3
    (by norm_num [sampleSurface, abs_le]) (by norm_num) (by norm_num)

end SSVI

namespace SSVI

theorem prmtrzt_nonneg (self : SSVI) (theta : ℝ) (hnu : 0 ≤ self.nu_) (htheta : 0 < theta) :
    0 ≤ self.prmtrzt theta :=
  mul_nonneg hnu (Real.rpow_nonneg htheta.le _)

/-- With a non-negative stored `nu_`, the calendar-spread check of a surface
with `0 < |rho| ≤ 1` and `0 ≤ gamma ≤ 1` returns true at every `theta > 0`. -/
theorem calendar_check_of_nonneg (self : SSVI) (theta : ℝ) (hnu : 0 ≤ self.nu_)
    (hrho : |self.rho_| ≤ 1) (hne : self.rho_ ≠ 0) (hg0 : 0 ≤ self.gamma_)
    (hg1 : self.gamma_ ≤ 1) (htheta : 0 < theta) :
    self.calendar_spread_arbitrage_check theta = true := by
  have hphi := prmtrzt_nonneg self theta hnu htheta
  have hr2 : 0 < self.rho_ * self.rho_ := mul_self_pos.mpr hne
  have hr1 : self.rho_ * self.rho_ ≤ 1 := by
    have := abs_le.mp hrho
    nlinarith
  have hsq := Real.sqrt_nonneg (1 - self.rho_ * self.rho_)
  have h1 : self.dprmtrzt theta ≥ 0 := by
    unfold dprmtrzt
    exact mul_nonneg (sub_nonneg.mpr hg1) hphi
  have h2 : self.dprmtrzt theta
      ≤ self.prmtrzt theta * (1 + Real.sqrt (1 - self.rho_ * self.rho_))
          / (self.rho_ * self.rho_) := by
    rw [le_div_iff₀ hr2]
    unfold dprmtrzt
    have ha : (1 - self.gamma_) * self.prmtrzt theta ≤ self.prmtrzt theta := by
      nlinarith
    have hb : (1 - self.gamma_) * self.prmtrzt theta * (self.rho_ * self.rho_)
        ≤ self.prmtrzt theta * 1 := by
      have := mul_nonneg (sub_nonneg.mpr hg1) hphi
      nlinarith
    have hc : self.prmtrzt theta * 1
        ≤ self.prmtrzt theta * (1 + Real.sqrt (1 - self.rho_ * self.rho_)) :=
      mul_le_mul_of_nonneg_left (by linarith) hphi
    linarith
  simp only [calendar_spread_arbitrage_check]
  rw [if_pos ⟨h1, h2⟩]

/-- C37 at a failing input: `SSVI(3/5, 1, 1/2)` passes every test of the
constructor, but in storage that held `nu_ = -1` the stored `nu_` is `-1`, and
at `theta = 1` `dprmtrzt = -1/2 < 0`, so `calendar_spread_arbitrage_check(1)`
returns false. When the stored `nu_` is non-negative the check returns true for
every `0 < |rho| ≤ 1`, `0 ≤ gamma ≤ 1` and `theta > 0`. -/
theorem ssvi_calendar_check_fails_on_valid :
    (∃ o, construct { rho_ := 0, nu_ := -1, gamma_ := 0 } (3 / 5) 1 (1 / 2) = .ok o ∧
      o.dprmtrzt 1 = -1 / 2 ∧ o.calendar_spread_arbitrage_check 1 = false) ∧
    ∀ (self : SSVI) (theta : ℝ), 0 ≤ self.nu_ → |self.rho_| ≤ 1 → self.rho_ ≠ 0 →
      0 ≤ self.gamma_ → self.gamma_ ≤ 1 → 0 < theta →
      self.calendar_spread_arbitrage_check theta = true := by
  refine ⟨⟨{ rho_ := 3 / 5, nu_ := -1, gamma_ := 1 / 2 }, ?_, ?_, ?_⟩, calendar_check_of_nonneg⟩
  · rw [ssvi_construct_eq, if_neg (by norm_num [abs_le])]
  · norm_num [dprmtrzt, prmtrzt]
  · norm_num [calendar_spread_arbitrage_check, dprmtrzt, prmtrzt]

/-- With a non-negative value of the power-law function, the two conditions
of the slice-level butterfly check on the jump-wings parameters of
`get_svi(theta, T)` give the surface-level check. -/
theorem butterfly_of_wings (self : SSVI) (theta T : ℝ) (hphi : 0 ≤ self.prmtrzt theta)
    (htheta : 0 < theta) (hT : 0 < T)
    (h1 : Real.sqrt (theta / T * T)
        * max (0.5 * (1 + self.rho_) * (self.prmtrzt theta * Real.sqrt theta))
            (0.5 * (1 - self.rho_) * (self.prmtrzt theta * Real.sqrt theta)) < 2)
    (h2 : (0.5 * (1 + self.rho_) * (self.prmtrzt theta * Real.sqrt theta)
          + 0.5 * (1 - self.rho_) * (self.prmtrzt theta * Real.sqrt theta))
        * max (0.5 * (1 + self.rho_) * (self.prmtrzt theta * Real.sqrt theta))
            (0.5 * (1 - self.rho_) * (self.prmtrzt theta * Real.sqrt theta)) ≤ 2) :
    self.butterfly_arbitrage_check theta = true := by
  have h05 : (0.5 : ℝ) = 1 / 2 := by norm_num
  rw [h05] at h1 h2
  rw [div_mul_cancel₀ theta hT.ne'] at h1
  have hs0 : 0 ≤ Real.sqrt theta := Real.sqrt_nonneg theta
  have hss : Real.sqrt theta * Real.sqrt theta = theta := Real.mul_self_sqrt htheta.le
  set phi := self.prmtrzt theta with hphidef
  set r := self.rho_ with hr
  set st := Real.sqrt theta with hst
  have hf0 : 0 ≤ 1 / 2 * (1 + r) * (phi * st) + 1 / 2 * (1 - r) * (phi * st) := by
    have : 1 / 2 * (1 + r) * (phi * st) + 1 / 2 * (1 - r) * (phi * st) = phi * st := by ring
    rw [this]
    exact mul_nonneg hphi hs0
  have a1 : st * (1 / 2 * (1 + r) * (phi * st)) < 2 :=
    lt_of_le_of_lt (mul_le_mul_of_nonneg_left (le_max_left _ _) hs0) h1
  have a2 : st * (1 / 2 * (1 - r) * (phi * st)) < 2 :=
    lt_of_le_of_lt (mul_le_mul_of_nonneg_left (le_max_right _ _) hs0) h1
  have b1 : (1 / 2 * (1 + r) * (phi * st) + 1 / 2 * (1 - r) * (phi * st))
      * (1 / 2 * (1 + r) * (phi * st)) ≤ 2 :=
    le_trans (mul_le_mul_of_nonneg_left (le_max_left _ _) hf0) h2
  have b2 : (1 / 2 * (1 + r) * (phi * st) + 1 / 2 * (1 - r) * (phi * st))
      * (1 / 2 * (1 - r) * (phi * st)) ≤ 2 :=
    le_trans (mul_le_mul_of_nonneg_left (le_max_right _ _) hf0) h2
  have a1' : theta * phi * (1 + r) < 4 := by
    have : st * (1 / 2 * (1 + r) * (phi * st)) = 1 / 2 * ((st * st) * phi * (1 + r)) := by ring
    rw [this, hss] at a1
    linarith
  have a2' : theta * phi * (1 - r) < 4 := by
    have : st * (1 / 2 * (1 - r) * (phi * st)) = 1 / 2 * ((st * st) * phi * (1 - r)) := by ring
    rw [this, hss] at a2
    linarith
  have b1' : theta * phi * (1 + r) * phi ≤ 4 := by
    have : (1 / 2 * (1 + r) * (phi * st) + 1 / 2 * (1 - r) * (phi * st))
        * (1 / 2 * (1 + r) * (phi * st)) = 1 / 2 * ((st * st) * phi * (1 + r) * phi) := by ring
    rw [this, hss] at b1
    linarith
  have b2' : theta * phi * (1 - r) * phi ≤ 4 := by
    have : (1 / 2 * (1 + r) * (phi * st) + 1 / 2 * (1 - r) * (phi * st))
        * (1 / 2 * (1 - r) * (phi * st)) = 1 / 2 * ((st * st) * phi * (1 - r) * phi) := by ring
    rw [this, hss] at b2
    linarith
  have hn := one_add_c_abs_le r
  have hq1 : theta * phi * (1 + |r|) ≤ 4 := by
    rcases abs_choice r with habs | habs
    · rw [habs]
      exact a1'.le
    · rw [habs]
      linarith
  have hq2 : theta * phi * phi * (1 + |r|) ≤ 4 := by
    rcases abs_choice r with habs | habs
    · rw [habs]
      linarith
    · rw [habs]
      linarith
  have hc1 : theta * phi * ((wrap_int (1 + c_abs r) : ℤ) : ℝ) ≤ 4 :=
    le_trans (mul_le_mul_of_nonneg_left hn (mul_nonneg htheta.le hphi)) hq1
  have hc2 : theta * phi * ((wrap_int (1 + c_abs r) : ℤ) : ℝ) * phi ≤ 4 := by
    have h3 := mul_le_mul_of_nonneg_left hn (mul_nonneg (mul_nonneg htheta.le hphi) hphi)
    linarith
  simp only [butterfly_arbitrage_check]
  rw [if_pos ⟨hc1, hc2⟩]

end SSVI

namespace SVI

theorem memberInit_b_p (mem : SVI) (factor vt ut ct pt vmt t : ℝ) (self : SVI)
    (h : memberInit mem factor vt ut ct pt vmt t = .ok self) :
    self.b = Real.sqrt (vt * t) * (ct + pt) / 2 ∧
      self.p = (if self.b = 0 then 0 else 1 - pt * Real.sqrt (vt * t) / self.b) := by
  simp only [memberInit, bind, Except.bind, pure, Except.pure] at h
  split at h
  · cases h
  · rename_i vbeta hbeta
    split at h
    · cases h
    · rename_i vb hb
      split at h
      · cases h
      · rename_i vp hp
        injection h with h
        subst h
        exact ⟨(get_b_ok _ _ hb).1, (get_p_ok _ _ hp).1⟩

/-- The stored `b` and `p` of every returning run of the constructor, in terms
of the arguments. -/
theorem svi_construct_b_p (mem : SVI) (factor vt ut ct pt vmt t : ℝ) (o : SVI)
    (h : construct mem factor vt ut ct pt vmt t = .ok o) :
    o.b = Real.sqrt (vt * t) * (ct + pt) / 2 ∧
      o.p = (if o.b = 0 then 0 else 1 - pt * Real.sqrt (vt * t) / o.b) := by
  unfold construct at h
  cases hm : memberInit mem factor vt ut ct pt vmt t with
  | error e =>
    rw [hm] at h
    cases h
  | ok self =>
    rw [hm] at h
    obtain ⟨ho, -⟩ := bodyChecks_ok self o h
    subst ho
    exact memberInit_b_p mem factor vt ut ct pt vmt t _ hm

/-- C39 at a failing input: `SVI(1, -3/10, 5, -1, 1, 1)`, with `ct + pt = 4`,
is constructed in the storage of `sampleSlice` although `pt = -1 < 0`: its
`p = 3/2` passes `abs(p_) > 1.0`, because the integer `abs` truncates it to
`1`. What every returning run with `ct + pt ≠ 0` does have is `ct + pt > 0` and
`p = (ct - pt)/(ct + pt)`. -/
theorem svi_negative_wing_accepted :
    (∃ o, construct sampleSlice 1 1 (-3 / 10) 5 (-1) 1 1 = .ok o ∧ o.ct_ + o.pt_ ≠ 0 ∧
      o.pt_ = -1 ∧ ¬ (0 ≤ o.pt_) ∧ o.p = 3 / 2 ∧ 1 < |o.p|) ∧
    ∀ (mem : SVI) (factor vt ut ct pt vmt t : ℝ) (o : SVI),
      construct mem factor vt ut ct pt vmt t = .ok o → ct + pt ≠ 0 →
      0 < ct + pt ∧ o.ct_ = ct ∧ o.pt_ = pt ∧ o.p = (ct - pt) / (ct + pt) := by
  constructor
  · refine ⟨wingSlice, wingSlice_construct, ?_, rfl, ?_, rfl, ?_⟩
    · norm_num [wingSlice]
    · norm_num [wingSlice]
    · have h : wingSlice.p = 3 / 2 := rfl
      rw [h, abs_of_pos (by norm_num)]
      norm_num
  · intro mem factor vt ut ct pt vmt t o h hne
    obtain ⟨⟨-, -, hct, hpt, -, -⟩, ⟨hvt, -, ht⟩, -, -, hb0, -⟩ :=
      svi_construct_ok mem factor vt ut ct pt vmt t o h
    obtain ⟨hb, hp⟩ := svi_construct_b_p mem factor vt ut ct pt vmt t o h
    have hs : 0 < Real.sqrt (vt * t) := Real.sqrt_pos.mpr (mul_pos hvt ht)
    have hsum0 : 0 ≤ ct + pt := by
      by_contra hneg
      have hlt : ct + pt < 0 := not_le.mp hneg
      have : Real.sqrt (vt * t) * (ct + pt) < 0 := mul_neg_of_pos_of_neg hs hlt
      rw [hb] at hb0
      linarith
    have hsum : 0 < ct + pt := lt_of_le_of_ne hsum0 (Ne.symm hne)
    have hbne : o.b ≠ 0 := by
      rw [hb]
      exact (div_pos (mul_pos hs hsum) (by norm_num)).ne'
    have hpv : o.p = (ct - pt) / (ct + pt) := by
      rw [hp, if_neg hbne, hb]
      field_simp
      ring
    exact ⟨hsum, hct, hpt, hpv⟩

end SVI

namespace SVI

/-- In `staleStorage`, `SVI(2, 0, 0, 0, 2, 1)` is constructed as
`staleFlatSlice`. -/
theorem staleFlatSlice_construct (factor : ℝ) :
    construct staleStorage factor 2 0 0 0 2 1 = .ok staleFlatSlice := by
  norm_num [c_abs_gt_one_real, construct, memberInit, bodyChecks, staleStorage, staleFlatSlice, staleSlice, get_a,
    get_beta, get_alpha, get_b, get_m, get_s, get_p, get_dmdt, get_dadt, get_dsdt, get_dbdt,
    bind, Except.bind, pure, Except.pure]

/-- C34 at a failing input: `SSVI(0, 0, 1/2)` (stored `nu_ = 0`, as passed)
with `theta = 2`, `T = 1`. In `staleStorage` `get_svi(2, 1)` returns a flat
slice with `a = T*vmt - 1 = 1`, whose `total_variance(k)` is `1` for every `k`,
while `SSVI::total_variance(k, 2)` is `2`. The second equality of the claim is
the definition of `SSVI::total_variance`. -/
theorem ssvi_slice_not_surface :
    (∃ S, SSVI.construct SSVI.zeroStorage 0 0 (1 / 2) = .ok S ∧
      ∀ factor, ∃ V, S.get_svi staleStorage factor 2 1 = .ok V ∧
        ∀ k, V.total_variance k = 1 ∧ S.total_variance k 2 = 2 ∧
          V.total_variance k ≠ S.total_variance k 2) ∧
    ∀ (S : SSVI) (k theta : ℝ),
      S.total_variance k theta
        = theta / 2 * (1 + S.rho_ * S.prmtrzt theta * k
            + Real.sqrt ((S.prmtrzt theta * k + S.rho_) ^ 2 + 1 - S.rho_ ^ 2)) := by
  constructor
  · refine ⟨{ rho_ := 0, nu_ := 0, gamma_ := 1 / 2 }, ?_, ?_⟩
    · rw [SSVI.ssvi_construct_eq, if_neg (by norm_num)]
      rfl
    · intro factor
      refine ⟨staleFlatSlice, ?_, ?_⟩
      · have h : SSVI.get_svi { rho_ := 0, nu_ := 0, gamma_ := 1 / 2 } staleStorage factor 2 1
            = construct staleStorage factor 2 0 0 0 2 1 := by
          norm_num [SSVI.get_svi, SSVI.prmtrzt]
        rw [h]
        exact staleFlatSlice_construct factor
      · intro k
        have h1 : staleFlatSlice.total_variance k = 1 := by
          norm_num [total_variance, staleFlatSlice, staleSlice]
        have h2 : SSVI.total_variance { rho_ := 0, nu_ := 0, gamma_ := 1 / 2 } k 2 = 2 := by
          norm_num [SSVI.total_variance, SSVI.prmtrzt]
        refine ⟨h1, h2, ?_⟩
        rw [h1, h2]
        norm_num
  · intro S k theta
    have h05 : (0.5 : ℝ) = 1 / 2 := by norm_num
    simp only [SSVI.total_variance, h05]
    have e1 : (S.prmtrzt theta * k + S.rho_) * (S.prmtrzt theta * k + S.rho_)
        + (1 - S.rho_ * S.rho_) = (S.prmtrzt theta * k + S.rho_) ^ 2 + 1 - S.rho_ ^ 2 := by
      ring
    rw [e1]
    ring

/-- C38 at a failing input: `SSVI(1, 1, 0)` passes every test of the
constructor, but in storage that held `nu_ = -2` the stored `nu_` is `-2`. At
`theta = 1`, `T = 1` the jump-wings parameters of `get_svi` are `vt = 1`,
`ct = -2`, `pt = 0`, on which both slice-level conditions hold
(`max(ct, pt) = 0`), while `theta*phi*(1 + |rho|)*phi = 8 > 4` and
`SSVI::butterfly_arbitrage_check(1)` returns false. The implication holds when
the stored `nu_` is non-negative, and whenever `get_svi` returns a slice whose
`butterfly_arbitrage_check()` is true. -/
theorem ssvi_slice_butterfly_not_stronger :
    (∃ S, SSVI.construct { rho_ := 0, nu_ := -2, gamma_ := 0 } 1 1 0 = .ok S ∧
      Real.sqrt (1 / 1 * 1)
          * max (0.5 * (1 + S.rho_) * (S.prmtrzt 1 * Real.sqrt 1))
              (0.5 * (1 - S.rho_) * (S.prmtrzt 1 * Real.sqrt 1)) < 2 ∧
      (0.5 * (1 + S.rho_) * (S.prmtrzt 1 * Real.sqrt 1)
            + 0.5 * (1 - S.rho_) * (S.prmtrzt 1 * Real.sqrt 1))
          * max (0.5 * (1 + S.rho_) * (S.prmtrzt 1 * Real.sqrt 1))
              (0.5 * (1 - S.rho_) * (S.prmtrzt 1 * Real.sqrt 1)) ≤ 2 ∧
      S.butterfly_arbitrage_check 1 = false) ∧
    (∀ (S : SSVI) (theta T : ℝ), 0 ≤ S.nu_ → 0 < theta → 0 < T →
      Real.sqrt (theta / T * T)
          * max (0.5 * (1 + S.rho_) * (S.prmtrzt theta * Real.sqrt theta))
              (0.5 * (1 - S.rho_) * (S.prmtrzt theta * Real.sqrt theta)) < 2 →
      (0.5 * (1 + S.rho_) * (S.prmtrzt theta * Real.sqrt theta)
            + 0.5 * (1 - S.rho_) * (S.prmtrzt theta * Real.sqrt theta))
          * max (0.5 * (1 + S.rho_) * (S.prmtrzt theta * Real.sqrt theta))
              (0.5 * (1 - S.rho_) * (S.prmtrzt theta * Real.sqrt theta)) ≤ 2 →
      S.butterfly_arbitrage_check theta = true) ∧
    ∀ (S : SSVI) (mem : SVI) (factor theta T : ℝ) (V : SVI), 0 < theta → 0 < T →
      S.get_svi mem factor theta T = .ok V → V.butterfly_arbitrage_check = true →
      S.butterfly_arbitrage_check theta = true := by
  refine ⟨⟨{ rho_ := 1, nu_ := -2, gamma_ := 0 }, ?_, ?_, ?_, ?_⟩, ?_, ?_⟩
  · rw [SSVI.ssvi_construct_eq, if_neg (by norm_num)]
  · norm_num [SSVI.prmtrzt]
  · norm_num [SSVI.prmtrzt]
  · norm_num [SSVI.butterfly_arbitrage_check, SSVI.prmtrzt, c_abs_one, wrap_int]
  · intro S theta T hnu htheta hT h1 h2
    exact SSVI.butterfly_of_wings S theta T (SSVI.prmtrzt_nonneg S theta hnu htheta) htheta hT
      h1 h2
  · intro S mem factor theta T V htheta hT h hV
    unfold SSVI.get_svi at h
    obtain ⟨⟨hvt, -, hct, hpt, -, hT_⟩, -, -, -, hb0, -⟩ := svi_construct_ok _ _ _ _ _ _ _ _ V h
    obtain ⟨hb, -⟩ := svi_construct_b_p _ _ _ _ _ _ _ _ V h
    have h05 : (0.5 : ℝ) = 1 / 2 := by norm_num
    have hs : 0 < Real.sqrt theta := Real.sqrt_pos.mpr htheta
    have hphi : 0 ≤ S.prmtrzt theta := by
      rw [hb, div_mul_cancel₀ theta hT.ne', h05] at hb0
      have e : Real.sqrt theta * (1 / 2 * (1 + S.rho_) * (S.prmtrzt theta * Real.sqrt theta)
          + 1 / 2 * (1 - S.rho_) * (S.prmtrzt theta * Real.sqrt theta)) / 2
          = S.prmtrzt theta * (Real.sqrt theta * Real.sqrt theta / 2) := by ring
      rw [e] at hb0
      by_contra hneg
      have := mul_neg_of_neg_of_pos (not_le.mp hneg)
        (div_pos (mul_pos hs hs) (by norm_num : (0 : ℝ) < 2))
      linarith
    simp only [butterfly_arbitrage_check, hvt, hct, hpt, hT_] at hV
    split at hV
    · rename_i hc
      exact SSVI.butterfly_of_wings S theta T hphi htheta hT hc.1 hc.2
    · cases hV

end SVI

end

end Arbitrage
